import Mathlib

/-!
# Verification of the job-tracker export / analytics pipeline

Shallow embedding of the application's renderer backends
(`exportToPDF`, `exportToDocx`, `exportToText`), the generation
orchestrator's response parsing and settings validation, the
job-text validator, the dashboard response-rate statistics and the
date-parsing helper, together with theorems settling the frozen
claims about them.

Machine reals that appear only as constant font sizes / widths are
modelled as `ℚ`; all cursor arithmetic in the PDF renderer is on
integer point values and is modelled as `ℕ`.  External library
functions (jsPDF text measurement and line wrapping, `JSON.parse`)
are parameters of the embedding.
-/

/-! ## JavaScript string primitives -/

/-- The character class matched by JavaScript's `\s` (as used by
`String.prototype.trim` and the `/\s+/g` replacement): ASCII
whitespace, NBSP, BOM and the Unicode space separators. -/
def jsWhitespace (c : Char) : Bool :=
  c = ' ' ∨ c = '\t' ∨ c = '\n' ∨ c = '\r' ∨
  c.val = 0x0b ∨ c.val = 0x0c ∨ c.val = 0xa0 ∨ c.val = 0xfeff ∨
  c.val = 0x1680 ∨ (0x2000 ≤ c.val ∧ c.val ≤ 0x200a) ∨
  c.val = 0x2028 ∨ c.val = 0x2029 ∨ c.val = 0x202f ∨
  c.val = 0x205f ∨ c.val = 0x3000

/-- JavaScript `String.prototype.trim`: strip `\s` characters from both
ends. -/
def jsTrim (s : String) : String :=
  String.mk (((s.data.dropWhile jsWhitespace).reverse.dropWhile jsWhitespace).reverse)

/-- JavaScript string truthiness: a string is truthy iff non-empty
(this is what `filter(Boolean)` and `cond ? a : b` test on strings). -/
def strTruthy (s : String) : Bool := s ≠ ""

/-- Truthiness of an optional string field (`undefined` is falsy, an
empty string is falsy). -/
def optTruthy : Option String → Bool
  | none => false
  | some s => strTruthy s

/-- Core of `replace(/\s+/g, '_')`: every maximal run of `\s`
characters becomes a single underscore.  The flag records whether the
previous character was part of a whitespace run (so the run emits
only one underscore, at its first character). -/
def collapseWsChars (prevWs : Bool) : List Char → List Char
  | [] => []
  | c :: cs =>
    if jsWhitespace c then
      (if prevWs then [] else ['_']) ++ collapseWsChars true cs
    else
      c :: collapseWsChars false cs

/-- `companyName.replace(/\s+/g, '_')` as used by all three filename
builders. -/
def collapseWs (s : String) : String :=
  String.mk (collapseWsChars false s.data)

/-! ## Résumé data model (`src/pages/MasterResume.tsx` interfaces) -/

/-- `ResumeBullet`: one line item with a soft-delete `enabled` flag. -/
structure ResumeBullet where
  id : String
  text : String
  enabled : Bool
deriving DecidableEq, Repr

/-- `ResumeHeader`. -/
structure ResumeHeader where
  name : String
  email : String
  phone : String
  linkedin : String
  location : String
  website : Option String := none
deriving DecidableEq, Repr

/-- `ResumeEducation`. -/
structure ResumeEducation where
  id : String
  school : String
  degree : String
  field : String
  location : String
  graduationDate : String
  gpa : Option String := none
  bullets : List ResumeBullet
deriving DecidableEq, Repr

/-- `ResumeExperience`. -/
structure ResumeExperience where
  id : String
  company : String
  title : String
  location : String
  startDate : String
  endDate : String
  bullets : List ResumeBullet
deriving DecidableEq, Repr

/-- `ResumeProject`. -/
structure ResumeProject where
  id : String
  name : String
  description : Option String := none
  technologies : List String := []
  startDate : String
  endDate : String
  link : Option String := none
  bullets : List ResumeBullet
deriving DecidableEq, Repr

/-- `ResumeSkills`: four categorized string lists. -/
structure ResumeSkills where
  technical : List String
  languages : List String
  tools : List String
  certifications : List String
deriving DecidableEq, Repr

/-- `ResumeSummary`. -/
structure ResumeSummary where
  id : String
  name : String
  text : String
  isDefault : Bool
deriving DecidableEq, Repr

/-- `LeadershipExperience`. -/
structure LeadershipExperience where
  id : String
  title : String
  organization : String
  location : String
  startDate : String
  endDate : String
  bullets : List ResumeBullet
deriving DecidableEq, Repr

/-- `MasterResume`: the aggregate root consumed by every renderer. -/
structure MasterResume where
  header : ResumeHeader
  summaries : List ResumeSummary
  education : List ResumeEducation
  experience : List ResumeExperience
  projects : List ResumeProject
  skills : ResumeSkills
  leadership : List LeadershipExperience
deriving DecidableEq, Repr

/-- The `ExportContent` record passed to every backend. -/
structure ExportContent where
  resume : String
  coverLetter : String
  companyName : String
  roleName : String
  masterResume : Option MasterResume := none
deriving DecidableEq, Repr

/-- The `type` selector `'resume' | 'coverLetter' | 'both'`. -/
inductive ExportType
  | resume
  | coverLetter
  | both
deriving DecidableEq, Repr

/-- Remove every disabled bullet from an education entry. -/
def ResumeEducation.dropDisabled (e : ResumeEducation) : ResumeEducation :=
  { e with bullets := e.bullets.filter (·.enabled) }

/-- Remove every disabled bullet from an experience entry. -/
def ResumeExperience.dropDisabled (e : ResumeExperience) : ResumeExperience :=
  { e with bullets := e.bullets.filter (·.enabled) }

/-- Remove every disabled bullet from a project entry. -/
def ResumeProject.dropDisabled (e : ResumeProject) : ResumeProject :=
  { e with bullets := e.bullets.filter (·.enabled) }

/-- Remove every disabled bullet from a leadership entry. -/
def LeadershipExperience.dropDisabled (e : LeadershipExperience) : LeadershipExperience :=
  { e with bullets := e.bullets.filter (·.enabled) }

/-- Remove every disabled bullet from the whole résumé (the model with
all soft-deleted bullets physically erased). -/
def MasterResume.dropDisabled (r : MasterResume) : MasterResume :=
  { r with
    education := r.education.map ResumeEducation.dropDisabled
    experience := r.experience.map ResumeExperience.dropDisabled
    projects := r.projects.map ResumeProject.dropDisabled
    leadership := r.leadership.map LeadershipExperience.dropDisabled }

/-- `dropDisabled` lifted to the optional `masterResume` field. -/
def ExportContent.dropDisabled (c : ExportContent) : ExportContent :=
  { c with masterResume := c.masterResume.map MasterResume.dropDisabled }

/-! ## Shared renderer pieces -/

/-- `[location, phone, email, linkedin].filter(Boolean)` — the contact
line fields, identical in all three backends. -/
def contactParts (h : ResumeHeader) : List String :=
  [h.location, h.phone, h.email, h.linkedin].filter strTruthy

/-- `[...technical, ...tools, ...certifications].filter(Boolean)` — the
combined SKILLS list, identical in all three backends. -/
def allSkillsList (s : ResumeSkills) : List String :=
  (s.technical ++ s.tools ++ s.certifications).filter strTruthy

/-- `'─'.repeat(50)` — the plain-text section underline. -/
def dashRule : String := String.mk (List.replicate 50 '─')

/-- `'='.repeat(50)` — the plain-text fallback / cover-letter rule. -/
def eqRule : String := String.mk (List.replicate 50 '=')

/-- The `Resume_/CoverLetter_/Application_` filename ternary of
`exportToPDF`. -/
def pdfFileName (company : String) : ExportType → String
  | ExportType.resume => "Resume_" ++ collapseWs company ++ ".pdf"
  | ExportType.coverLetter => "CoverLetter_" ++ collapseWs company ++ ".pdf"
  | ExportType.both => "Application_" ++ collapseWs company ++ ".pdf"

/-- The filename ternary of `exportToDocx`. -/
def docxFileName (company : String) : ExportType → String
  | ExportType.resume => "Resume_" ++ collapseWs company ++ ".docx"
  | ExportType.coverLetter => "CoverLetter_" ++ collapseWs company ++ ".docx"
  | ExportType.both => "Application_" ++ collapseWs company ++ ".docx"

/-- The filename ternary of `exportToText`. -/
def textFileName (company : String) : ExportType → String
  | ExportType.resume => "Resume_" ++ collapseWs company ++ ".txt"
  | ExportType.coverLetter => "CoverLetter_" ++ collapseWs company ++ ".txt"
  | ExportType.both => "Application_" ++ collapseWs company ++ ".txt"

/-! ## Plain-text backend (`exportToText`) -/

/-- One education entry of the plain-text backend. -/
def textEducation (e : ResumeEducation) : String :=
  e.degree ++ (if strTruthy e.field then " in " ++ e.field else "") ++ "\t" ++
    e.graduationDate ++ "\n" ++
  e.school ++ (if strTruthy e.location then ", " ++ e.location else "") ++ "\n" ++
  String.join ((e.bullets.filter (·.enabled)).map (fun b => "• " ++ b.text ++ "\n")) ++
  "\n"

/-- One work-experience entry of the plain-text backend. -/
def textExperience (e : ResumeExperience) : String :=
  e.title ++ "\t" ++ e.startDate ++ " to " ++ e.endDate ++ "\n" ++
  e.company ++ (if strTruthy e.location then ", " ++ e.location else "") ++ "\n" ++
  String.join ((e.bullets.filter (·.enabled)).map (fun b => "• " ++ b.text ++ "\n")) ++
  "\n"

/-- One leadership entry of the plain-text backend. -/
def textLeadership (e : LeadershipExperience) : String :=
  e.title ++ "\t" ++ e.startDate ++ " to " ++ e.endDate ++ "\n" ++
  e.organization ++ (if strTruthy e.location then ", " ++ e.location else "") ++ "\n" ++
  String.join ((e.bullets.filter (·.enabled)).map (fun b => "• " ++ b.text ++ "\n")) ++
  "\n"

/-- One project entry of the plain-text backend. -/
def textProject (p : ResumeProject) : String :=
  p.name ++
    (if strTruthy p.startDate ∨ strTruthy p.endDate then
      "\t" ++ p.startDate ++ " to " ++ p.endDate
    else "") ++ "\n" ++
  (match p.link with
    | some l => if strTruthy l then l ++ "\n" else ""
    | none => "") ++
  String.join ((p.bullets.filter (·.enabled)).map (fun b => "• " ++ b.text ++ "\n")) ++
  "\n"

/-- The structured path of the plain-text backend. -/
def textStructured (r : MasterResume) : String :=
  r.header.name ++ "\n" ++
  String.intercalate " | " (contactParts r.header) ++ "\n\n" ++
  (if r.education.length > 0 then
    "EDUCATION\n" ++ dashRule ++ "\n" ++ String.join (r.education.map textEducation)
  else "") ++
  (if r.experience.length > 0 then
    "WORK EXPERIENCE\n" ++ dashRule ++ "\n" ++ String.join (r.experience.map textExperience)
  else "") ++
  (if r.leadership.length > 0 then
    "LEADERSHIP EXPERIENCE\n" ++ dashRule ++ "\n" ++ String.join (r.leadership.map textLeadership)
  else "") ++
  (if r.projects.length > 0 then
    "ACADEMIC PROJECTS\n" ++ dashRule ++ "\n" ++ String.join (r.projects.map textProject)
  else "") ++
  (if (allSkillsList r.skills).length > 0 then
    "SKILLS\n" ++ dashRule ++ "\n" ++ String.intercalate ", " (allSkillsList r.skills) ++ "\n\n"
  else "") ++
  (if r.skills.languages.length > 0 then
    "LANGUAGES\n" ++ dashRule ++ "\n" ++ String.intercalate ", " r.skills.languages ++ "\n"
  else "")

/-- `exportToText`: the produced text and the artifact filename. -/
def exportToTextModel (content : ExportContent) (ty : ExportType) : String × String :=
  let text :=
    if ty = ExportType.resume ∨ ty = ExportType.both then
      match content.masterResume with
      | some r => textStructured r
      | none =>
        "RESUME - " ++ content.roleName ++ "\n" ++ content.companyName ++ "\n" ++
          eqRule ++ "\n\n" ++ content.resume ++ "\n"
    else ""
  let text := text ++
    (if ty = ExportType.both ∧ strTruthy content.coverLetter then
      "\n" ++ eqRule ++ "\n\n"
    else "")
  let text := text ++
    (if (ty = ExportType.coverLetter ∨ ty = ExportType.both) ∧ strTruthy content.coverLetter then
      "COVER LETTER\n" ++ eqRule ++ "\n\n" ++ content.coverLetter ++ "\n"
    else "")
  (text, textFileName content.companyName ty)

/-! ## Styled-package backend (`exportToDocx`)

The `docx` library objects are modelled structurally: a paragraph keeps
the fields the export code actually sets (runs, alignment, bottom
border, native bullet level, right tab stop, page break, spacing).
Sizes are the half-point integers passed to `TextRun`; tab stops and
margins are twip values. -/

/-- `AlignmentType` as used by the export code. -/
inductive DocxAlignment
  | left
  | center
deriving DecidableEq, Repr

/-- `spacing: { before?, after? }`. -/
structure DocxSpacing where
  before : Option Nat := none
  after : Option Nat := none
deriving DecidableEq, Repr

/-- A `TextRun`. -/
structure DocxRun where
  text : String
  bold : Bool := false
  size : Nat
  color : Option String := none
  underline : Bool := false
deriving DecidableEq, Repr

/-- A `Paragraph`. -/
structure DocxParagraph where
  runs : List DocxRun := []
  alignment : DocxAlignment := DocxAlignment.left
  bottomBorder : Bool := false
  bullet : Option Nat := none
  tabStopRight : Option ℚ := none
  pageBreakBefore : Bool := false
  spacing : DocxSpacing := {}
deriving DecidableEq, Repr

/-- `convertInchesToTwip` (1 inch = 1440 twips). -/
def convertInchesToTwip (q : ℚ) : ℚ := q * 1440

/-- Section page margins. -/
structure DocxMargins where
  top : ℚ
  bottom : ℚ
  left : ℚ
  right : ℚ
deriving DecidableEq, Repr

/-- The produced document: margins, paragraph list, artifact name. -/
structure DocxDoc where
  margins : DocxMargins
  children : List DocxParagraph
  fileName : String
deriving DecidableEq, Repr

/-- The `addSectionHeader` helper: bold 11-pt run with a bottom
border. -/
def docxSectionHeader (title : String) : DocxParagraph :=
  { runs := [{ text := title, bold := true, size := 22 }]
    bottomBorder := true
    spacing := { before := some 200, after := some 120 } }

/-- A native bulleted-list paragraph for one (enabled) bullet. -/
def docxBulletPara (b : ResumeBullet) : DocxParagraph :=
  { runs := [{ text := b.text, size := 18 }]
    bullet := some 0
    spacing := { after := some 40 } }

/-- Education entry paragraphs. -/
def docxEducationParas (e : ResumeEducation) : List DocxParagraph :=
  [ { runs :=
        [ { text := e.degree ++ (if strTruthy e.field then " in " ++ e.field else "")
            bold := true, size := 20 }
        , { text := "\t" ++ e.graduationDate, size := 20 } ]
      tabStopRight := some (convertInchesToTwip (6.5 : ℚ))
      spacing := { after := some 40 } }
  , { runs := [ { text := e.school ++ (if strTruthy e.location then ", " ++ e.location else "")
                  size := 20 } ]
      spacing := { after := some 80 } } ] ++
  (e.bullets.filter (·.enabled)).map docxBulletPara

/-- Work-experience entry paragraphs. -/
def docxExperienceParas (e : ResumeExperience) : List DocxParagraph :=
  [ { runs :=
        [ { text := e.title, bold := true, size := 20 }
        , { text := "\t" ++ e.startDate ++ " to " ++ e.endDate, size := 20 } ]
      tabStopRight := some (convertInchesToTwip (6.5 : ℚ))
      spacing := { after := some 40 } }
  , { runs := [ { text := e.company ++ (if strTruthy e.location then ", " ++ e.location else "")
                  size := 20 } ]
      spacing := { after := some 80 } } ] ++
  (e.bullets.filter (·.enabled)).map docxBulletPara

/-- Leadership entry paragraphs. -/
def docxLeadershipParas (e : LeadershipExperience) : List DocxParagraph :=
  [ { runs :=
        [ { text := e.title, bold := true, size := 20 }
        , { text := "\t" ++ e.startDate ++ " to " ++ e.endDate, size := 20 } ]
      tabStopRight := some (convertInchesToTwip (6.5 : ℚ))
      spacing := { after := some 40 } }
  , { runs := [ { text := e.organization ++ (if strTruthy e.location then ", " ++ e.location else "")
                  size := 20 } ]
      spacing := { after := some 80 } } ] ++
  (e.bullets.filter (·.enabled)).map docxBulletPara

/-- Project entry paragraphs (optional date run, optional link line). -/
def docxProjectParas (p : ResumeProject) : List DocxParagraph :=
  [ { runs :=
        [ { text := p.name, bold := true, size := 20 } ] ++
        (if strTruthy p.startDate ∨ strTruthy p.endDate then
          [ { text := "\t" ++ p.startDate ++ " to " ++ p.endDate, size := 20 } ]
        else [])
      tabStopRight := some (convertInchesToTwip (6.5 : ℚ))
      spacing := { after := some 40 } } ] ++
  (match p.link with
    | some l =>
      if strTruthy l then
        [ { runs := [ { text := l, size := 18, color := some "0000AA", underline := true } ]
            spacing := { after := some 40 } } ]
      else []
    | none => []) ++
  (p.bullets.filter (·.enabled)).map docxBulletPara

/-- The structured path of the styled-package backend. -/
def docxStructured (r : MasterResume) : List DocxParagraph :=
  [ { runs := [ { text := if strTruthy r.header.name then r.header.name else "Your Name"
                  bold := true, size := 32 } ]
      alignment := DocxAlignment.center
      spacing := { after := some 80 } }
  , { runs := [ { text := String.intercalate " | " (contactParts r.header), size := 18 } ]
      alignment := DocxAlignment.center
      spacing := { after := some 200 } } ] ++
  (if r.education.length > 0 then
    docxSectionHeader "EDUCATION" :: (r.education.map docxEducationParas).flatten
  else []) ++
  (if r.experience.length > 0 then
    docxSectionHeader "WORK EXPERIENCE" :: (r.experience.map docxExperienceParas).flatten
  else []) ++
  (if r.leadership.length > 0 then
    docxSectionHeader "LEADERSHIP EXPERIENCE" :: (r.leadership.map docxLeadershipParas).flatten
  else []) ++
  (if r.projects.length > 0 then
    docxSectionHeader "ACADEMIC PROJECTS" :: (r.projects.map docxProjectParas).flatten
  else []) ++
  (if (allSkillsList r.skills).length > 0 then
    [ docxSectionHeader "SKILLS"
    , { runs := [ { text := String.intercalate ", " (allSkillsList r.skills), size := 18 } ]
        spacing := { after := some 80 } } ]
  else []) ++
  (if r.skills.languages.length > 0 then
    [ docxSectionHeader "LANGUAGES"
    , { runs := [ { text := String.intercalate ", " r.skills.languages, size := 18 } ]
        spacing := { after := some 80 } } ]
  else [])

/-- `exportToDocx`: the produced document model. -/
def exportToDocxModel (content : ExportContent) (ty : ExportType) : DocxDoc :=
  let children :=
    if ty = ExportType.resume ∨ ty = ExportType.both then
      match content.masterResume with
      | some r => docxStructured r
      | none =>
        { runs := [ { text := "Resume - " ++ content.roleName, bold := true, size := 28 } ]
          spacing := { after := some 120 } } ::
        (content.resume.splitOn "\n").filterMap (fun line =>
          if strTruthy (jsTrim line) then
            some { runs := [ { text := line, size := 20 } ], spacing := { after := some 60 } }
          else none)
    else []
  let children := children ++
    (if ty = ExportType.both ∧ strTruthy content.coverLetter then
      [ { runs := [], pageBreakBefore := true } ]
    else [])
  let children := children ++
    (if (ty = ExportType.coverLetter ∨ ty = ExportType.both) ∧ strTruthy content.coverLetter then
      { runs := [ { text := "Cover Letter", bold := true, size := 28 } ]
        spacing := { after := some 200 } } ::
      (content.coverLetter.splitOn "\n").filterMap (fun para =>
        if strTruthy (jsTrim para) then
          some { runs := [ { text := jsTrim para, size := 22 } ]
                 spacing := { after := some 120 } }
        else none)
    else [])
  { margins :=
      { top := convertInchesToTwip (0.5 : ℚ), bottom := convertInchesToTwip (0.5 : ℚ)
        left := convertInchesToTwip (0.75 : ℚ), right := convertInchesToTwip (0.75 : ℚ) }
    children := children
    fileName := docxFileName content.companyName ty }

/-! ## Paginated-PDF backend (`exportToPDF`)

The renderer is modelled as a state machine over a vertical cursor
`y` (integer points — every increment in the source is an integer)
and an ordered list of draw commands.  jsPDF's text measurement and
line wrapping are external library behaviour and are passed in as
the `PdfTextMetrics` parameter: `measure style size text` models
`pdf.getTextWidth(text)` under the current font, and
`split style size text maxWidth` models
`pdf.splitTextToSize(text, maxWidth)`. -/

/-- `pdf.setFont('helvetica', ·)` styles used by the export code. -/
inductive FontStyle
  | normal
  | bold
deriving DecidableEq, Repr

/-- External jsPDF text metrics. -/
structure PdfTextMetrics where
  measure : FontStyle → ℚ → String → ℚ
  split : FontStyle → ℚ → String → Nat → List String

/-- One draw command issued to the jsPDF object. -/
inductive PdfCmd
  | setFont (style : FontStyle)
  | setFontSize (size : ℚ)
  | text (s : String) (x : ℚ) (y : Nat)
  | textLink (s : String) (x : ℚ) (y : Nat) (url : String)
  | rule (y : Nat)
  | newPage
deriving DecidableEq, Repr

/-- US-Letter width in points. -/
def pageWidth : Nat := 612

/-- US-Letter height in points. -/
def pageHeight : Nat := 792

/-- Left margin (≈0.7 in). -/
def marginLeft : Nat := 50

/-- Right margin. -/
def marginRight : Nat := 50

/-- Top margin. -/
def marginTop : Nat := 50

/-- Bottom margin. -/
def marginBottom : Nat := 50

/-- `pageWidth - marginLeft - marginRight`. -/
def contentWidth : Nat := pageWidth - marginLeft - marginRight

/-- Hanging indent for bullets. -/
def bulletIndent : Nat := 20

/-- The renderer state: vertical cursor and commands so far. -/
structure PdfState where
  y : Nat
  out : List PdfCmd
deriving DecidableEq, Repr

/-- Issue one command. -/
def pdfEmit (c : PdfCmd) (st : PdfState) : PdfState :=
  { st with out := st.out ++ [c] }

/-- `yPosition += n`. -/
def pdfAdvance (n : Nat) (st : PdfState) : PdfState :=
  { st with y := st.y + n }

/-- `addNewPageIfNeeded`: start a new page and reset the cursor when
the required space would cross the bottom margin. -/
def addNewPageIfNeeded (required : Nat) (st : PdfState) : PdfState :=
  if st.y + required > pageHeight - marginBottom then
    { y := marginTop, out := st.out ++ [PdfCmd.newPage] }
  else st

/-- The wrapped-line loop of a bullet: first line at the left margin,
continuation lines indented, 11-pt line step. -/
def pdfWrappedLines (indent : Nat) : List String → Bool → PdfState → PdfState
  | [], _, st => st
  | l :: ls, isFirst, st =>
    pdfWrappedLines indent ls false
      (pdfAdvance 11
        (pdfEmit (PdfCmd.text l ((marginLeft : ℚ) + (if isFirst then 0 else (indent : ℚ))) st.y) st))

/-- A line loop with a page-break check before each line (fallback
résumé text and cover-letter paragraphs). -/
def pdfCheckedLines (required lineH : Nat) : List String → PdfState → PdfState
  | [], st => st
  | l :: ls, st =>
    let st := addNewPageIfNeeded required st
    pdfCheckedLines required lineH ls
      (pdfAdvance lineH (pdfEmit (PdfCmd.text l (marginLeft : ℚ) st.y) st))

/-- A plain line loop with no page-break check (SKILLS body). -/
def pdfPlainLines (lineH : Nat) : List String → PdfState → PdfState
  | [], st => st
  | l :: ls, st =>
    pdfPlainLines lineH ls (pdfAdvance lineH (pdfEmit (PdfCmd.text l (marginLeft : ℚ) st.y) st))

/-- One education bullet (checked, 9.5 pt, hanging indent 20). -/
def pdfEduBullet (m : PdfTextMetrics) (b : ResumeBullet) (st : PdfState) : PdfState :=
  let st := addNewPageIfNeeded 20 st
  let st := pdfEmit (PdfCmd.setFontSize (9.5 : ℚ)) st
  let lines := m.split FontStyle.normal (9.5 : ℚ) ("• " ++ b.text) (contentWidth - bulletIndent)
  pdfWrappedLines bulletIndent lines true st

/-- One experience/leadership bullet (checked, 9 pt, indent 10). -/
def pdfExpBullet (m : PdfTextMetrics) (b : ResumeBullet) (st : PdfState) : PdfState :=
  let st := addNewPageIfNeeded 20 st
  let st := pdfEmit (PdfCmd.setFontSize 9) st
  let lines := m.split FontStyle.normal 9 ("• " ++ b.text) (contentWidth - 10)
  pdfWrappedLines 10 lines true st

/-- One project bullet (checked, 9.5 pt, hanging indent 20). -/
def pdfProjBullet (m : PdfTextMetrics) (b : ResumeBullet) (st : PdfState) : PdfState :=
  let st := addNewPageIfNeeded 20 st
  let st := pdfEmit (PdfCmd.setFont FontStyle.normal) st
  let st := pdfEmit (PdfCmd.setFontSize (9.5 : ℚ)) st
  let lines := m.split FontStyle.normal (9.5 : ℚ) ("• " ++ b.text) (contentWidth - bulletIndent)
  pdfWrappedLines bulletIndent lines true st

/-- The résumé header: centered name and contact line. -/
def pdfHeaderSec (m : PdfTextMetrics) (r : MasterResume) (st : PdfState) : PdfState :=
  let st := pdfEmit (PdfCmd.setFont FontStyle.bold) st
  let st := pdfEmit (PdfCmd.setFontSize 15) st
  let name := if strTruthy r.header.name then r.header.name else "Your Name"
  let st := pdfEmit (PdfCmd.text name (((pageWidth : ℚ) - m.measure FontStyle.bold 15 name) / 2) st.y) st
  let st := pdfAdvance 14 st
  let st := pdfEmit (PdfCmd.setFont FontStyle.normal) st
  let st := pdfEmit (PdfCmd.setFontSize (9.5 : ℚ)) st
  let contactLine := String.intercalate " | " (contactParts r.header)
  let st := pdfEmit (PdfCmd.text contactLine
    (((pageWidth : ℚ) - m.measure FontStyle.normal (9.5 : ℚ) contactLine) / 2) st.y) st
  pdfAdvance 16 st

/-- One education entry. -/
def pdfEduEntry (m : PdfTextMetrics) (e : ResumeEducation) (st : PdfState) : PdfState :=
  let st := addNewPageIfNeeded 50 st
  let st := pdfEmit (PdfCmd.setFont FontStyle.bold) st
  let st := pdfEmit (PdfCmd.setFontSize 10) st
  let degree := e.degree ++ (if strTruthy e.field then " in " ++ e.field else "")
  let st := pdfEmit (PdfCmd.text degree (marginLeft : ℚ) st.y) st
  let st := pdfEmit (PdfCmd.setFont FontStyle.normal) st
  let st := pdfEmit (PdfCmd.text e.graduationDate
    ((pageWidth : ℚ) - (marginRight : ℚ) - m.measure FontStyle.normal 10 e.graduationDate) st.y) st
  let st := pdfAdvance 10 st
  let st := pdfEmit (PdfCmd.setFont FontStyle.normal) st
  let st := pdfEmit (PdfCmd.setFontSize (9.5 : ℚ)) st
  let schoolLine := e.school ++ (if strTruthy e.location then ", " ++ e.location else "")
  let st := pdfEmit (PdfCmd.text schoolLine (marginLeft : ℚ) st.y) st
  let st := pdfAdvance (if (e.bullets.filter (·.enabled)).length > 0 then 10 else 12) st
  (e.bullets.filter (·.enabled)).foldl (fun st b => pdfEduBullet m b st) st

/-- The EDUCATION section. -/
def pdfEducationSec (m : PdfTextMetrics) (r : MasterResume) (st : PdfState) : PdfState :=
  if r.education.length > 0 then
    let st := pdfEmit (PdfCmd.setFont FontStyle.bold) st
    let st := pdfEmit (PdfCmd.setFontSize (10.5 : ℚ)) st
    let st := pdfEmit (PdfCmd.text "EDUCATION" (marginLeft : ℚ) st.y) st
    let st := pdfAdvance 2 st
    let st := pdfEmit (PdfCmd.rule st.y) st
    let st := pdfAdvance 10 st
    let st := r.education.foldl (fun st e => pdfEduEntry m e st) st
    pdfAdvance 6 st
  else st

/-- One work-experience entry. -/
def pdfExpEntry (m : PdfTextMetrics) (e : ResumeExperience) (st : PdfState) : PdfState :=
  let st := addNewPageIfNeeded 60 st
  let st := pdfEmit (PdfCmd.setFont FontStyle.bold) st
  let st := pdfEmit (PdfCmd.setFontSize 10) st
  let st := pdfEmit (PdfCmd.text e.title (marginLeft : ℚ) st.y) st
  let st := pdfEmit (PdfCmd.setFont FontStyle.normal) st
  let expDates := e.startDate ++ " to " ++ e.endDate
  let st := pdfEmit (PdfCmd.text expDates
    ((pageWidth : ℚ) - (marginRight : ℚ) - m.measure FontStyle.normal 10 expDates) st.y) st
  let st := pdfAdvance 12 st
  let st := pdfEmit (PdfCmd.setFont FontStyle.normal) st
  let st := pdfEmit (PdfCmd.setFontSize 10) st
  let companyLine := e.company ++ (if strTruthy e.location then ", " ++ e.location else "")
  let st := pdfEmit (PdfCmd.text companyLine (marginLeft : ℚ) st.y) st
  let st := pdfAdvance 12 st
  let st := (e.bullets.filter (·.enabled)).foldl (fun st b => pdfExpBullet m b st) st
  pdfAdvance 6 st

/-- The WORK EXPERIENCE section. -/
def pdfExperienceSec (m : PdfTextMetrics) (r : MasterResume) (st : PdfState) : PdfState :=
  if r.experience.length > 0 then
    let st := addNewPageIfNeeded 60 st
    let st := pdfEmit (PdfCmd.setFont FontStyle.bold) st
    let st := pdfEmit (PdfCmd.setFontSize 11) st
    let st := pdfEmit (PdfCmd.text "WORK EXPERIENCE" (marginLeft : ℚ) st.y) st
    let st := pdfAdvance 2 st
    let st := pdfEmit (PdfCmd.rule st.y) st
    let st := pdfAdvance 12 st
    r.experience.foldl (fun st e => pdfExpEntry m e st) st
  else st

/-- One leadership entry. -/
def pdfLeadEntry (m : PdfTextMetrics) (e : LeadershipExperience) (st : PdfState) : PdfState :=
  let st := addNewPageIfNeeded 60 st
  let st := pdfEmit (PdfCmd.setFont FontStyle.bold) st
  let st := pdfEmit (PdfCmd.setFontSize 10) st
  let st := pdfEmit (PdfCmd.text e.title (marginLeft : ℚ) st.y) st
  let st := pdfEmit (PdfCmd.setFont FontStyle.normal) st
  let leadDates := e.startDate ++ " to " ++ e.endDate
  let st := pdfEmit (PdfCmd.text leadDates
    ((pageWidth : ℚ) - (marginRight : ℚ) - m.measure FontStyle.normal 10 leadDates) st.y) st
  let st := pdfAdvance 12 st
  let st := pdfEmit (PdfCmd.setFont FontStyle.normal) st
  let st := pdfEmit (PdfCmd.setFontSize 10) st
  let orgLine := e.organization ++ (if strTruthy e.location then ", " ++ e.location else "")
  let st := pdfEmit (PdfCmd.text orgLine (marginLeft : ℚ) st.y) st
  let st := pdfAdvance 12 st
  let st := (e.bullets.filter (·.enabled)).foldl (fun st b => pdfExpBullet m b st) st
  pdfAdvance 6 st

/-- The LEADERSHIP EXPERIENCE section. -/
def pdfLeadershipSec (m : PdfTextMetrics) (r : MasterResume) (st : PdfState) : PdfState :=
  if r.leadership.length > 0 then
    let st := addNewPageIfNeeded 50 st
    let st := pdfEmit (PdfCmd.setFont FontStyle.bold) st
    let st := pdfEmit (PdfCmd.setFontSize 11) st
    let st := pdfEmit (PdfCmd.text "LEADERSHIP EXPERIENCE" (marginLeft : ℚ) st.y) st
    let st := pdfAdvance 2 st
    let st := pdfEmit (PdfCmd.rule st.y) st
    let st := pdfAdvance 12 st
    r.leadership.foldl (fun st e => pdfLeadEntry m e st) st
  else st

/-- One project entry (optional right-aligned dates, optional
hyperlink line). -/
def pdfProjEntry (m : PdfTextMetrics) (p : ResumeProject) (st : PdfState) : PdfState :=
  let st := addNewPageIfNeeded 40 st
  let st := pdfEmit (PdfCmd.setFont FontStyle.bold) st
  let st := pdfEmit (PdfCmd.setFontSize 10) st
  let st := pdfEmit (PdfCmd.text p.name (marginLeft : ℚ) st.y) st
  let st :=
    if strTruthy p.startDate ∨ strTruthy p.endDate then
      let st := pdfEmit (PdfCmd.setFont FontStyle.normal) st
      let dateText := p.startDate ++ " to " ++ p.endDate
      pdfEmit (PdfCmd.text dateText
        ((pageWidth : ℚ) - (marginRight : ℚ) - m.measure FontStyle.normal 10 dateText) st.y) st
    else st
  let st := pdfAdvance 10 st
  let st :=
    match p.link with
    | some l =>
      if strTruthy l then
        let st := pdfEmit (PdfCmd.setFont FontStyle.normal) st
        let st := pdfEmit (PdfCmd.setFontSize (9.5 : ℚ)) st
        let st := pdfEmit (PdfCmd.textLink l (marginLeft : ℚ) st.y l) st
        pdfAdvance 10 st
      else st
    | none => st
  let st := (p.bullets.filter (·.enabled)).foldl (fun st b => pdfProjBullet m b st) st
  pdfAdvance 6 st

/-- The ACADEMIC PROJECTS section. -/
def pdfProjectsSec (m : PdfTextMetrics) (r : MasterResume) (st : PdfState) : PdfState :=
  if r.projects.length > 0 then
    let st := addNewPageIfNeeded 50 st
    let st := pdfEmit (PdfCmd.setFont FontStyle.bold) st
    let st := pdfEmit (PdfCmd.setFontSize (10.5 : ℚ)) st
    let st := pdfEmit (PdfCmd.text "ACADEMIC PROJECTS" (marginLeft : ℚ) st.y) st
    let st := pdfAdvance 2 st
    let st := pdfEmit (PdfCmd.rule st.y) st
    let st := pdfAdvance 10 st
    let st := r.projects.foldl (fun st p => pdfProjEntry m p st) st
    pdfAdvance 6 st
  else st

/-- The SKILLS section (no page-break check inside the body loop). -/
def pdfSkillsSec (m : PdfTextMetrics) (r : MasterResume) (st : PdfState) : PdfState :=
  if (allSkillsList r.skills).length > 0 then
    let st := addNewPageIfNeeded 30 st
    let st := pdfEmit (PdfCmd.setFont FontStyle.bold) st
    let st := pdfEmit (PdfCmd.setFontSize 11) st
    let st := pdfEmit (PdfCmd.text "SKILLS" (marginLeft : ℚ) st.y) st
    let st := pdfAdvance 2 st
    let st := pdfEmit (PdfCmd.rule st.y) st
    let st := pdfAdvance 12 st
    let st := pdfEmit (PdfCmd.setFont FontStyle.normal) st
    let st := pdfEmit (PdfCmd.setFontSize 9) st
    let lines := m.split FontStyle.normal 9 (String.intercalate ", " (allSkillsList r.skills)) contentWidth
    let st := pdfPlainLines 11 lines st
    pdfAdvance 6 st
  else st

/-- The LANGUAGES section (`m` kept for uniformity with the other
section signatures). -/
def pdfLanguagesSec (_m : PdfTextMetrics) (r : MasterResume) (st : PdfState) : PdfState :=
  if r.skills.languages.length > 0 then
    let st := addNewPageIfNeeded 30 st
    let st := pdfEmit (PdfCmd.setFont FontStyle.bold) st
    let st := pdfEmit (PdfCmd.setFontSize 11) st
    let st := pdfEmit (PdfCmd.text "LANGUAGES" (marginLeft : ℚ) st.y) st
    let st := pdfAdvance 2 st
    let st := pdfEmit (PdfCmd.rule st.y) st
    let st := pdfAdvance 12 st
    let st := pdfEmit (PdfCmd.setFont FontStyle.normal) st
    let st := pdfEmit (PdfCmd.setFontSize 9) st
    let st := pdfEmit (PdfCmd.text (String.intercalate ", " r.skills.languages) (marginLeft : ℚ) st.y) st
    pdfAdvance 16 st
  else st

/-- The structured résumé path of the PDF backend, in source order. -/
def pdfStructured (m : PdfTextMetrics) (r : MasterResume) (st : PdfState) : PdfState :=
  pdfLanguagesSec m r
    (pdfSkillsSec m r
      (pdfProjectsSec m r
        (pdfLeadershipSec m r
          (pdfExperienceSec m r
            (pdfEducationSec m r
              (pdfHeaderSec m r st))))))

/-- The fallback path: raw résumé text as wrapped lines. -/
def pdfFallback (m : PdfTextMetrics) (content : ExportContent) (st : PdfState) : PdfState :=
  let st := pdfEmit (PdfCmd.setFont FontStyle.bold) st
  let st := pdfEmit (PdfCmd.setFontSize 14) st
  let st := pdfEmit (PdfCmd.text ("Resume - " ++ content.roleName) (marginLeft : ℚ) st.y) st
  let st := pdfAdvance 14 st
  let st := pdfEmit (PdfCmd.setFont FontStyle.normal) st
  let st := pdfEmit (PdfCmd.setFontSize 10) st
  let st := pdfEmit (PdfCmd.text content.companyName (marginLeft : ℚ) st.y) st
  let st := pdfAdvance 20 st
  let st := pdfEmit (PdfCmd.setFontSize 10) st
  let lines := m.split FontStyle.normal 10 content.resume contentWidth
  pdfCheckedLines 14 12 lines st

/-- Cover-letter pages: blank-line separated paragraphs, each wrapped
and emitted with a per-line page-break check. -/
def pdfCoverLetterSec (m : PdfTextMetrics) (content : ExportContent) (st : PdfState) : PdfState :=
  let st := pdfEmit (PdfCmd.setFont FontStyle.bold) st
  let st := pdfEmit (PdfCmd.setFontSize 14) st
  let st := pdfEmit (PdfCmd.text "Cover Letter" (marginLeft : ℚ) st.y) st
  let st := pdfAdvance 24 st
  let st := pdfEmit (PdfCmd.setFont FontStyle.normal) st
  let st := pdfEmit (PdfCmd.setFontSize 10) st
  (content.coverLetter.splitOn "\n").foldl
    (fun st para =>
      if strTruthy (jsTrim para) then
        let lines := m.split FontStyle.normal 10 (jsTrim para) contentWidth
        pdfAdvance 8 (pdfCheckedLines 14 13 lines st)
      else st) st

/-- `exportToPDF`: whole-document command stream. -/
def exportToPDFModel (m : PdfTextMetrics) (content : ExportContent) (ty : ExportType) : PdfState :=
  let st : PdfState := { y := marginTop, out := [] }
  let st :=
    if ty = ExportType.resume ∨ ty = ExportType.both then
      match content.masterResume with
      | some r => pdfStructured m r st
      | none => pdfFallback m content st
    else st
  let st :=
    if ty = ExportType.both ∧ strTruthy content.coverLetter then
      { y := marginTop, out := st.out ++ [PdfCmd.newPage] }
    else st
  if (ty = ExportType.coverLetter ∨ ty = ExportType.both) ∧ strTruthy content.coverLetter then
    pdfCoverLetterSec m content st
  else st

/-! ## Section presence (structured path)

One transcription of the section conditionals per backend, used to
compare the three backends' section structure. -/

/-- The seven résumé sections of the structured path. -/
inductive ResumeSection
  | header
  | education
  | work
  | leadership
  | projects
  | skills
  | languages
deriving DecidableEq, Repr

/-- Sections emitted by `exportToPDF`'s structured path, in source
order, with each section's guard transcribed from its `if`. -/
def pdfSectionList (r : MasterResume) : List ResumeSection :=
  [ResumeSection.header] ++
  (if r.education.length > 0 then [ResumeSection.education] else []) ++
  (if r.experience.length > 0 then [ResumeSection.work] else []) ++
  (if r.leadership.length > 0 then [ResumeSection.leadership] else []) ++
  (if r.projects.length > 0 then [ResumeSection.projects] else []) ++
  (if (allSkillsList r.skills).length > 0 then [ResumeSection.skills] else []) ++
  (if r.skills.languages.length > 0 then [ResumeSection.languages] else [])

/-- Sections emitted by `exportToDocx`'s structured path. -/
def docxSectionList (r : MasterResume) : List ResumeSection :=
  [ResumeSection.header] ++
  (if r.education.length > 0 then [ResumeSection.education] else []) ++
  (if r.experience.length > 0 then [ResumeSection.work] else []) ++
  (if r.leadership.length > 0 then [ResumeSection.leadership] else []) ++
  (if r.projects.length > 0 then [ResumeSection.projects] else []) ++
  (if (allSkillsList r.skills).length > 0 then [ResumeSection.skills] else []) ++
  (if r.skills.languages.length > 0 then [ResumeSection.languages] else [])

/-- Sections emitted by `exportToText`'s structured path. -/
def textSectionList (r : MasterResume) : List ResumeSection :=
  [ResumeSection.header] ++
  (if r.education.length > 0 then [ResumeSection.education] else []) ++
  (if r.experience.length > 0 then [ResumeSection.work] else []) ++
  (if r.leadership.length > 0 then [ResumeSection.leadership] else []) ++
  (if r.projects.length > 0 then [ResumeSection.projects] else []) ++
  (if (allSkillsList r.skills).length > 0 then [ResumeSection.skills] else []) ++
  (if r.skills.languages.length > 0 then [ResumeSection.languages] else [])

/-! ## Tracking engine: response statistics
(`src/components/dashboard/ApplicationStats.tsx`) -/

/-- An application record, restricted to the fields the statistics
selector reads (`status` is the TS string-literal union). -/
structure Application where
  id : String
  company : String
  role : String
  status : String
deriving DecidableEq, Repr

/-- JavaScript `Math.round`: round half toward positive infinity. -/
def jsMathRound (q : ℚ) : ℤ := ⌊q + 1 / 2⌋

/-- The record produced by the `responseStats` memo. -/
structure ResponseStats where
  responseRate : ℤ
  positiveRate : ℤ
  interviewRate : ℤ
  offerRate : ℤ
deriving DecidableEq, Repr

/-- The `responseStats` selector. -/
def responseStats (applications : List Application) : ResponseStats :=
  let total := applications.length
  let responded :=
    (applications.filter (fun app => (["interview", "offer", "rejected"] : List String).contains app.status)).length
  let positive :=
    (applications.filter (fun app => (["interview", "offer"] : List String).contains app.status)).length
  { responseRate := if total > 0 then jsMathRound ((responded : ℚ) / (total : ℚ) * 100) else 0
    positiveRate := if total > 0 then jsMathRound ((positive : ℚ) / (total : ℚ) * 100) else 0
    interviewRate :=
      if total > 0 then
        jsMathRound (((applications.filter (fun a => a.status = "interview")).length : ℚ) / (total : ℚ) * 100)
      else 0
    offerRate :=
      if total > 0 then
        jsMathRound (((applications.filter (fun a => a.status = "offer")).length : ℚ) / (total : ℚ) * 100)
      else 0 }

/-! ## Date parsing (`src/lib/dateUtils.ts`)

A JS `Date` is modelled by its timestamp at minute resolution
(minutes since the Unix epoch) — every date the claims touch has
zero seconds and milliseconds.  The host timezone enters as `tz`,
the local offset from UTC in minutes (local wall time = UTC + `tz`).
-/

/-- A JS `Date` value (minute-resolution timestamp). -/
structure JsDate where
  epochMinutes : ℤ
deriving DecidableEq, Repr

/-- The calendar-day number (days since 1970-01-01) of the date in
the host's local timezone. -/
def JsDate.localDayNumber (tz : ℤ) (d : JsDate) : ℤ :=
  (d.epochMinutes + tz).fdiv 1440

/-- The minute-of-day of the date in the host's local timezone
(0 = local midnight). -/
def JsDate.localMinuteOfDay (tz : ℤ) (d : JsDate) : ℤ :=
  (d.epochMinutes + tz).emod 1440

/-- Days since 1970-01-01 of a proleptic-Gregorian civil date
(Hinnant's `days_from_civil`). -/
def daysFromCivil (y : ℤ) (m d : ℕ) : ℤ :=
  let yAdj : ℤ := if m ≤ 2 then y - 1 else y
  let era : ℤ := (if 0 ≤ yAdj then yAdj else yAdj - 399) / 400
  let yoe : ℤ := yAdj - era * 400
  let mp : ℤ := ((m : ℤ) + 9) % 12
  let doy : ℤ := (153 * mp + 2) / 5 + (d : ℤ) - 1
  let doe : ℤ := yoe * 365 + yoe / 4 - yoe / 100 + doy
  era * 146097 + doe - 719468

/-- Gregorian leap-year test. -/
def isLeapYear (y : ℤ) : Bool := (y % 4 = 0 ∧ y % 100 ≠ 0) ∨ y % 400 = 0

/-- Days in a month. -/
def daysInMonth (y : ℤ) (m : ℕ) : ℕ :=
  if m = 2 then (if isLeapYear y then 29 else 28)
  else if m = 4 ∨ m = 6 ∨ m = 9 ∨ m = 11 then 30
  else 31

/-- Split a character list on a separator character. -/
def splitOnChar (sep : Char) : List Char → List (List Char)
  | [] => [[]]
  | c :: cs =>
    let r := splitOnChar sep cs
    if c = sep then [] :: r
    else
      match r with
      | [] => [[c]]
      | g :: gs => (c :: g) :: gs

/-- Parse a non-empty all-digit character run. -/
def digitsToNat (cs : List Char) : Option ℕ :=
  if cs ≠ [] ∧ cs.all (·.isDigit) then
    some (cs.foldl (fun n c => n * 10 + (c.toNat - '0'.toNat)) 0)
  else none

/-- Assemble a timestamp from parsed ISO components. -/
def mkISODate (tz : ℤ) (datePart : List Char) (utc : Bool) (hh mm : List Char) : Option JsDate :=
  match splitOnChar '-' datePart with
  | [ys, ms, ds] =>
    match digitsToNat ys, digitsToNat ms, digitsToNat ds, digitsToNat hh, digitsToNat mm with
    | some y, some mo, some d, some h, some mi =>
      let wall := daysFromCivil (y : ℤ) mo d * 1440 + (h : ℤ) * 60 + (mi : ℤ)
      some ⟨if utc then wall else wall - tz⟩
    | _, _, _, _, _ => none
  | _ => none

/-- The date-plus-time case of the ISO parse: a trailing `Z` selects
UTC, the time must be `HH:MM` or `HH:MM:SS`. -/
def parseISOTime (tz : ℤ) (datePart timePart : List Char) : Option JsDate :=
  let utc := timePart.getLast? == some 'Z'
  let tp := if utc then timePart.dropLast else timePart
  match splitOnChar ':' tp with
  | [hh, mm] => mkISODate tz datePart utc hh mm
  | [hh, mm, ss] =>
    if (digitsToNat ss).isSome then mkISODate tz datePart utc hh mm else none
  | _ => none

/-- Modelled from the library: `date-fns`'s `parseISO` (an external
dependency of `parseDate`), for the whole-second input shapes this
repository produces.  A string without a timezone designator is
interpreted in the host's local timezone; a trailing `Z` means UTC;
a date-only string is local midnight.  Calendar-range validation of
out-of-range components is not modelled — the claims only apply it
to valid calendar dates. -/
def parseISOModel (tz : ℤ) (s : String) : Option JsDate :=
  match splitOnChar 'T' s.data with
  | [datePart] => mkISODate tz datePart false ['0', '0'] ['0', '0']
  | [datePart, timePart] => parseISOTime tz datePart timePart
  | _ => none

/-- The `/^\d{4}-\d{2}-\d{2}$/` test of `parseDate`. -/
def matchesDateOnly (s : String) : Bool :=
  match s.data with
  | [a, b, c, d, h1, e, f, h2, g, h] =>
    a.isDigit && b.isDigit && c.isDigit && d.isDigit && h1 = '-' &&
    e.isDigit && f.isDigit && h2 = '-' && g.isDigit && h.isDigit
  | _ => false

/-- `parseDate`: empty input yields the current clock (`new Date()`),
a `YYYY-MM-DD` string gets `T00:00:00` appended to force local-time
interpretation, anything else goes to `parseISO` unchanged.  `none`
models an Invalid Date. -/
def parseDateModel (now : JsDate) (tz : ℤ) (dateString : String) : Option JsDate :=
  if dateString = "" then some now
  else if matchesDateOnly dateString then parseISOModel tz (dateString ++ "T00:00:00")
  else parseISOModel tz dateString

/-! ## Edge-function input validation -/

/-- A primitive JS value as seen by `typeof` dispatch. -/
inductive JsPrim
  | jstr (s : String)
  | jnum (q : ℚ)
  | jbool (b : Bool)
  | jnull
  | jundef
deriving DecidableEq, Repr

/-- Result shape of `validateJobText`. -/
inductive JobTextValidation
  | invalid (error : String)
  | valid (value : String)
deriving DecidableEq, Repr

/-- `validateJobText`, first version
(`supabase/functions/parse-job-description/index.ts`, with the
50,000-character upper bound). -/
def validateJobTextV1 (jobText : JsPrim) : JobTextValidation :=
  match jobText with
  | JsPrim.jstr s =>
    let trimmed := jsTrim s
    if trimmed.length = 0 then JobTextValidation.invalid "Job description is required"
    else if trimmed.length < 50 then JobTextValidation.invalid "Job description is too short"
    else if trimmed.length > 50000 then
      JobTextValidation.invalid "Job description is too long (max 50,000 characters)"
    else JobTextValidation.valid trimmed
  | _ => JobTextValidation.invalid "Job description must be a string"

/-- `validateJobText`, second version (same file, after the document
separator): only the type, emptiness and 50-character lower bound are
checked — there is no upper bound. -/
def validateJobTextV2 (jobText : JsPrim) : JobTextValidation :=
  match jobText with
  | JsPrim.jstr s =>
    let trimmed := jsTrim s
    if trimmed = "" then JobTextValidation.invalid "Job description is required"
    else if trimmed.length < 50 then JobTextValidation.invalid "Job description too short"
    else JobTextValidation.valid trimmed
  | _ => JobTextValidation.invalid "Job description must be a string"

/-! ## Generation orchestrator: settings validation -/

/-- The raw `settings` fields as read off the request body. -/
structure RawSettings where
  resumeLength : JsPrim := JsPrim.jundef
  emphasis : JsPrim := JsPrim.jundef
  atsLevel : JsPrim := JsPrim.jundef
  includeCoverLetter : JsPrim := JsPrim.jundef
  coverLetterTone : JsPrim := JsPrim.jundef
  generateWhyQuestions : JsPrim := JsPrim.jundef
deriving DecidableEq, Repr

/-- The validated `Settings` record. -/
structure Settings where
  resumeLength : ℚ
  emphasis : String
  atsLevel : String
  includeCoverLetter : Bool
  coverLetterTone : String
  generateWhyQuestions : Bool
deriving DecidableEq, Repr

/-- `validateString(value, maxLength)`: non-strings become `""`,
strings are trimmed then truncated to `maxLength`. -/
def validateStringModel (value : JsPrim) (maxLength : ℕ) : String :=
  match value with
  | JsPrim.jstr s => String.mk ((jsTrim s).data.take maxLength)
  | _ => ""

/-- `array.includes(value)` where the array holds strings and the
value is an arbitrary JS primitive (strict equality: a non-string
never matches). -/
def includesStr (l : List String) (v : JsPrim) : Bool :=
  match v with
  | JsPrim.jstr s => l.contains s
  | _ => false

/-- `validateSettings` (identical in both generation-function
versions); `none` models a non-object `data` argument. -/
def validateSettings : Option RawSettings → Settings
  | none =>
    { resumeLength := 1, emphasis := "balanced", atsLevel := "medium"
      includeCoverLetter := true, coverLetterTone := "professional"
      generateWhyQuestions := true }
  | some s =>
    { resumeLength :=
        match s.resumeLength with
        | JsPrim.jnum q => min (max q 1) 3
        | _ => 1
      emphasis :=
        if includesStr ["technical", "leadership", "business", "balanced"] s.emphasis then
          match s.emphasis with
          | JsPrim.jstr v => v
          | _ => "balanced"
        else "balanced"
      atsLevel :=
        if includesStr ["low", "medium", "high"] s.atsLevel then
          match s.atsLevel with
          | JsPrim.jstr v => v
          | _ => "medium"
        else "medium"
      includeCoverLetter :=
        match s.includeCoverLetter with
        | JsPrim.jbool b => b
        | _ => true
      coverLetterTone :=
        let t := validateStringModel s.coverLetterTone 50
        if t = "" then "professional" else t
      generateWhyQuestions :=
        match s.generateWhyQuestions with
        | JsPrim.jbool b => b
        | _ => true }

/-! ## Generation orchestrator: AI response parsing

The response content is matched against
`/```(?:json)?\s*([\s\S]*?)```/` and the capture (if any) is trimmed
and `JSON.parse`d.  Because neither `json` nor whitespace contains a
backtick, the regex's leftmost-lazy match is exactly: the text
between the first fence and the next fence after it, with an
immediate `json` tag and leading whitespace stripped — which is what
`fencedCapture` computes from `splitOn`.  `JSON.parse` is external
and is a parameter `jparse` (`none` models a parse exception). -/

/-- Strip the optional `json` tag immediately after the opening
fence. -/
def stripJsonTag (p : List Char) : List Char :=
  if p.take 4 = ['j', 's', 'o', 'n'] then p.drop 4 else p

/-- Prepend a character to the first group of a split result. -/
def consHead (c : Char) : List (List Char) → List (List Char)
  | [] => [[c]]
  | g :: gs => (c :: g) :: gs

/-- Greedy leftmost split on a (non-empty) separator sequence; `fuel`
bounds the recursion and is instantiated at the input length, which
always suffices. -/
def splitSepFuel (sep : List Char) : ℕ → List Char → List (List Char)
  | 0, l => [l]
  | _ + 1, [] => [[]]
  | fuel + 1, c :: cs =>
    if (c :: cs).take sep.length = sep then
      [] :: splitSepFuel sep fuel ((c :: cs).drop sep.length)
    else
      consHead c (splitSepFuel sep fuel cs)

/-- Split a string at every triple-backtick fence. -/
def splitOnTicks (s : String) : List (List Char) :=
  splitSepFuel ['`', '`', '`'] (s.data.length + 1) s.data

/-- The trimmed capture of the fenced-code-block regex, if the
content contains a complete fenced block (at least two fences). -/
def fencedCapture (s : String) : Option String :=
  match splitOnTicks s with
  | _ :: p1 :: _ :: _ => some (jsTrim (String.mk (stripJsonTag p1)))
  | _ => none

/-- The parsed generation payload: either the embedded JSON document,
or the fallback object built from the raw response. -/
inductive GenResult (α : Type)
  | fromJson (j : α)
  | fallback (resume coverLetter whyRole whyCompany : String)
deriving DecidableEq, Repr

/-- The `generate-application` response handling, fourth source
document: parse only a fenced capture; on no fence or parse failure
keep the default `{ resume: content, coverLetter: '', whyRole: '',
whyCompany: '' }` and still return success. -/
def parseGenerationV4 {α : Type} (jparse : String → Option α) (content : String) : GenResult α :=
  match fencedCapture content with
  | some c =>
    match jparse c with
    | some j => GenResult.fromJson j
    | none => GenResult.fallback content "" "" ""
  | none => GenResult.fallback content "" "" ""

/-- `jsonStr`: the fenced capture when present, otherwise the whole
content (fifth source document). -/
def selectedJsonStr (content : String) : String :=
  match fencedCapture content with
  | some c => c
  | none => content

/-- The `generate-application` response handling, fifth source
document: parse the capture or the whole content; on parse failure
return success with the raw-text fallback object. -/
def parseGenerationV5 {α : Type} (jparse : String → Option α) (content : String) : GenResult α :=
  match jparse (selectedJsonStr content) with
  | some j => GenResult.fromJson j
  | none => GenResult.fallback content "" "" ""

/-! ## Helper definitions for the claims -/

/-- The filename prefix named by the spec for each export target. -/
def exportTargetTag : ExportType → String
  | ExportType.resume => "Resume_"
  | ExportType.coverLetter => "CoverLetter_"
  | ExportType.both => "Application_"

/-- `count where status = s` over an application list. -/
def countStatus (apps : List Application) (status : String) : ℕ :=
  (apps.filter (fun a => a.status = status)).length

/-- The spec's response-rate example: 10 applications — 3 interview,
2 offer, 1 rejected, 4 draft. -/
def demoApps : List Application :=
  [ ⟨"a1", "C", "R", "interview"⟩, ⟨"a2", "C", "R", "interview"⟩
  , ⟨"a3", "C", "R", "interview"⟩, ⟨"a4", "C", "R", "offer"⟩
  , ⟨"a5", "C", "R", "offer"⟩, ⟨"a6", "C", "R", "rejected"⟩
  , ⟨"a7", "C", "R", "draft"⟩, ⟨"a8", "C", "R", "draft"⟩
  , ⟨"a9", "C", "R", "draft"⟩, ⟨"a10", "C", "R", "draft"⟩ ]

theorem jsMathRound_eq_of (q : ℚ) (n : ℤ) (h1 : (n : ℚ) ≤ q + 1 / 2)
    (h2 : q + 1 / 2 < (n : ℚ) + 1) : jsMathRound q = n := by
  rw [jsMathRound]
  exact Int.floor_eq_iff.mpr ⟨h1, h2⟩

/-! ## C7 — export artifact filenames -/

/-- C7: for every company name, the artifact filename is
`Resume_{Company}.{ext}` / `CoverLetter_{Company}.{ext}` /
`Application_{Company}.{ext}` according to the target, identically in
all three backends (up to the extension), with whitespace in the
company name collapsed to underscores; in particular company
`"Acme Corp"` with target `both` yields `Application_Acme_Corp.pdf`. -/
theorem export_filenames_deterministic :
    (∀ (company : String) (ty : ExportType),
      pdfFileName company ty = exportTargetTag ty ++ collapseWs company ++ ".pdf" ∧
      docxFileName company ty = exportTargetTag ty ++ collapseWs company ++ ".docx" ∧
      textFileName company ty = exportTargetTag ty ++ collapseWs company ++ ".txt") ∧
    pdfFileName "Acme Corp" ExportType.both = "Application_Acme_Corp.pdf" ∧
    (exportToTextModel ⟨"", "", "Acme Corp", "", none⟩ ExportType.both).2 =
      "Application_Acme_Corp.txt" ∧
    (exportToDocxModel ⟨"", "", "Acme Corp", "", none⟩ ExportType.both).fileName =
      "Application_Acme_Corp.docx" := by
  refine ⟨fun company ty => ?_, by decide, by decide, by decide⟩
  cases ty <;>
    simp [pdfFileName, docxFileName, textFileName, exportTargetTag, String.append_assoc]

/-! ## C10 — `parseDate` on the empty string -/

/-- C10: `parseDate("")` does not throw and is not an invalid date:
it returns the current clock time (`new Date()`), so a caller passing
a missing date string silently receives the current date-time. -/
theorem parseDate_empty_returns_now :
    ∀ (now : JsDate) (tz : ℤ), parseDateModel now tz "" = some now := by
  intro now tz
  simp [parseDateModel]

/-! ## C5 — response-rate statistics -/

theorem filter_contains_three (apps : List Application) :
    (apps.filter
      (fun app => (["interview", "offer", "rejected"] : List String).contains app.status)).length =
      countStatus apps "interview" + countStatus apps "offer" + countStatus apps "rejected" := by
  induction apps with
  | nil => rfl
  | cons a t ih =>
    by_cases h1 : a.status = "interview" <;> by_cases h2 : a.status = "offer" <;>
      by_cases h3 : a.status = "rejected" <;>
      simp_all [countStatus, List.filter_cons, List.contains] <;> omega

theorem filter_contains_two (apps : List Application) :
    (apps.filter
      (fun app => (["interview", "offer"] : List String).contains app.status)).length =
      countStatus apps "interview" + countStatus apps "offer" := by
  induction apps with
  | nil => rfl
  | cons a t ih =>
    by_cases h1 : a.status = "interview" <;> by_cases h2 : a.status = "offer" <;>
      simp_all [countStatus, List.filter_cons, List.contains] <;> omega

/-- C5: the response-rate metrics — `responseRate` counts statuses in
{interview, offer, rejected} over the total, `positiveRate` counts
{interview, offer}, the per-status rates count the single status,
each as a `Math.round`ed percentage; all four are 0 for an empty
list; and the spec's 10-application example yields 60 / 50 / 30 / 20. -/
theorem responseStats_rates :
    (∀ apps : List Application, 0 < apps.length →
      (responseStats apps).responseRate =
        jsMathRound (((countStatus apps "interview" + countStatus apps "offer" +
          countStatus apps "rejected" : ℕ) : ℚ) / (apps.length : ℚ) * 100) ∧
      (responseStats apps).positiveRate =
        jsMathRound (((countStatus apps "interview" + countStatus apps "offer" : ℕ) : ℚ) /
          (apps.length : ℚ) * 100) ∧
      (responseStats apps).interviewRate =
        jsMathRound ((countStatus apps "interview" : ℚ) / (apps.length : ℚ) * 100) ∧
      (responseStats apps).offerRate =
        jsMathRound ((countStatus apps "offer" : ℚ) / (apps.length : ℚ) * 100)) ∧
    (∀ apps : List Application, apps.length = 0 → responseStats apps = ⟨0, 0, 0, 0⟩) ∧
    responseStats demoApps = ⟨60, 50, 30, 20⟩ := by
  refine ⟨fun apps h => ?_, fun apps h => ?_, ?_⟩
  · have h3 := filter_contains_three apps
    have h2 := filter_contains_two apps
    simp only [countStatus] at h3 h2 ⊢
    simp only [responseStats]
    rw [if_pos h, if_pos h, if_pos h, if_pos h, h3, h2]
    exact ⟨rfl, rfl, rfl, rfl⟩
  · have : apps = [] := List.length_eq_zero.mp h
    subst this
    rfl
  · have e1 : (demoApps.filter
        (fun app => (["interview", "offer", "rejected"] : List String).contains app.status)).length = 6 := by
      decide
    have e2 : (demoApps.filter
        (fun app => (["interview", "offer"] : List String).contains app.status)).length = 5 := by
      decide
    have e3 : (demoApps.filter (fun a => a.status = "interview")).length = 3 := by decide
    have e4 : (demoApps.filter (fun a => a.status = "offer")).length = 2 := by decide
    have e5 : demoApps.length = 10 := by decide
    simp only [responseStats, e1, e2, e3, e4, e5]
    norm_num
    refine ⟨?_, ?_, ?_, ?_⟩ <;>
      · apply jsMathRound_eq_of <;> norm_num

/-- Witness for C5 at the 10-application example. -/
theorem responseStats_rates_witness :
    0 < demoApps.length ∧
    (responseStats demoApps).responseRate =
      jsMathRound (((countStatus demoApps "interview" + countStatus demoApps "offer" +
        countStatus demoApps "rejected" : ℕ) : ℚ) / (demoApps.length : ℚ) * 100) :=
  ⟨by decide, (responseStats_rates.1 demoApps (by decide)).1⟩

/-! ## C2 — section order and conditional emission -/

/-- Concrete renderer metrics for counterexamples and witnesses:
zero-width measurement and no line wrapping. -/
def unitMetrics : PdfTextMetrics :=
  { measure := fun _ _ _ => 0, split := fun _ _ t _ => [t] }

/-- Wrap a résumé in an `ExportContent` record. -/
def contentOf (r : MasterResume) : ExportContent :=
  { resume := "", coverLetter := "", companyName := "C", roleName := "R"
    masterResume := some r }

/-- A résumé whose `skills.technical` array is non-empty but holds
only the empty string. -/
def resumeBlankSkill : MasterResume :=
  { header := { name := "A", email := "", phone := "", linkedin := "", location := "" }
    summaries := [], education := [], experience := [], projects := []
    skills := { technical := [""], languages := [], tools := [], certifications := [] }
    leadership := [] }

/-- C2 counterexample: for `resumeBlankSkill` the `skills.technical`
source array is non-empty, yet no backend emits a SKILLS section —
the guard is `allSkills.filter(Boolean).length > 0`, which drops empty
strings — so "section present iff source array non-empty" fails. -/
theorem sections_iff_counterexample :
    resumeBlankSkill.skills.technical ≠ [] ∧
    ResumeSection.skills ∉ pdfSectionList resumeBlankSkill ∧
    (splitOnChar '\n' (textStructured resumeBlankSkill).data).contains
      ['S', 'K', 'I', 'L', 'L', 'S'] = false ∧
    ((exportToDocxModel (contentOf resumeBlankSkill) ExportType.resume).children.any
      (fun p => p.runs.any (fun rn => rn.text = "SKILLS"))) = false ∧
    ((exportToPDFModel unitMetrics (contentOf resumeBlankSkill) ExportType.resume).out.any
      (fun c =>
        match c with
        | PdfCmd.text s _ _ => s = "SKILLS"
        | _ => false)) = false := by
  exact ⟨by decide, by decide, by decide, by decide, by decide⟩

theorem mem_if_singleton {α : Type} (a b : α) (c : Prop) [Decidable c] :
    (a ∈ if c then [b] else []) ↔ c ∧ a = b := by
  split_ifs <;> simp_all

theorem if_singleton_sublist {α : Type} (c : Prop) [Decidable c] (b : α) :
    List.Sublist (if c then [b] else []) [b] := by
  split_ifs <;> simp

/-- C2 amended: on the structured path all three backends emit the
same section list, in the fixed order HEADER → EDUCATION → WORK
EXPERIENCE → LEADERSHIP EXPERIENCE → ACADEMIC PROJECTS → SKILLS →
LANGUAGES; HEADER is always present; EDUCATION / WORK / LEADERSHIP /
PROJECTS / LANGUAGES are present iff their source array is
non-empty; SKILLS is present iff the concatenation
`technical ++ tools ++ certifications` contains at least one
non-empty string (not merely iff those arrays are non-empty). -/
theorem sections_structure_amended :
    ∀ r : MasterResume,
      pdfSectionList r = docxSectionList r ∧
      docxSectionList r = textSectionList r ∧
      ResumeSection.header ∈ pdfSectionList r ∧
      (ResumeSection.education ∈ pdfSectionList r ↔ r.education ≠ []) ∧
      (ResumeSection.work ∈ pdfSectionList r ↔ r.experience ≠ []) ∧
      (ResumeSection.leadership ∈ pdfSectionList r ↔ r.leadership ≠ []) ∧
      (ResumeSection.projects ∈ pdfSectionList r ↔ r.projects ≠ []) ∧
      (ResumeSection.skills ∈ pdfSectionList r ↔ allSkillsList r.skills ≠ []) ∧
      (ResumeSection.languages ∈ pdfSectionList r ↔ r.skills.languages ≠ []) ∧
      List.Sublist (pdfSectionList r)
        [ResumeSection.header, ResumeSection.education, ResumeSection.work,
         ResumeSection.leadership, ResumeSection.projects, ResumeSection.skills,
         ResumeSection.languages] := by
  intro r
  refine ⟨rfl, rfl, by simp [pdfSectionList], ?_, ?_, ?_, ?_, ?_, ?_, ?_⟩
  · simp [pdfSectionList, List.mem_append, mem_if_singleton, ← List.length_pos_iff_ne_nil]
  · simp [pdfSectionList, List.mem_append, mem_if_singleton, ← List.length_pos_iff_ne_nil]
  · simp [pdfSectionList, List.mem_append, mem_if_singleton, ← List.length_pos_iff_ne_nil]
  · simp [pdfSectionList, List.mem_append, mem_if_singleton, ← List.length_pos_iff_ne_nil]
  · simp [pdfSectionList, List.mem_append, mem_if_singleton, ← List.length_pos_iff_ne_nil]
  · simp [pdfSectionList, List.mem_append, mem_if_singleton, ← List.length_pos_iff_ne_nil]
  · unfold pdfSectionList
    exact ((((((List.Sublist.refl _).append (if_singleton_sublist _ _)).append
      (if_singleton_sublist _ _)).append (if_singleton_sublist _ _)).append
      (if_singleton_sublist _ _)).append (if_singleton_sublist _ _)).append
      (if_singleton_sublist _ _)

/-! ## C1 — disabled bullets are excluded from every render -/

theorem filter_enabled_idem (bs : List ResumeBullet) :
    (bs.filter (·.enabled)).filter (·.enabled) = bs.filter (·.enabled) := by
  simp [List.filter_filter]

theorem textEducation_dropDisabled (e : ResumeEducation) :
    textEducation e.dropDisabled = textEducation e := by
  simp [textEducation, ResumeEducation.dropDisabled, filter_enabled_idem]

theorem textExperience_dropDisabled (e : ResumeExperience) :
    textExperience e.dropDisabled = textExperience e := by
  simp [textExperience, ResumeExperience.dropDisabled, filter_enabled_idem]

theorem textLeadership_dropDisabled (e : LeadershipExperience) :
    textLeadership e.dropDisabled = textLeadership e := by
  simp [textLeadership, LeadershipExperience.dropDisabled, filter_enabled_idem]

theorem textProject_dropDisabled (p : ResumeProject) :
    textProject p.dropDisabled = textProject p := by
  simp [textProject, ResumeProject.dropDisabled, filter_enabled_idem]

theorem textStructured_dropDisabled (r : MasterResume) :
    textStructured r.dropDisabled = textStructured r := by
  have he : textEducation ∘ ResumeEducation.dropDisabled = textEducation :=
    funext textEducation_dropDisabled
  have hx : textExperience ∘ ResumeExperience.dropDisabled = textExperience :=
    funext textExperience_dropDisabled
  have hl : textLeadership ∘ LeadershipExperience.dropDisabled = textLeadership :=
    funext textLeadership_dropDisabled
  have hp : textProject ∘ ResumeProject.dropDisabled = textProject :=
    funext textProject_dropDisabled
  simp [textStructured, MasterResume.dropDisabled, List.map_map, he, hx, hl, hp]

theorem exportToText_dropDisabled (c : ExportContent) (ty : ExportType) :
    exportToTextModel c.dropDisabled ty = exportToTextModel c ty := by
  cases hm : c.masterResume with
  | none => simp [exportToTextModel, ExportContent.dropDisabled, hm]
  | some r =>
    simp [exportToTextModel, ExportContent.dropDisabled, hm, textStructured_dropDisabled]

theorem docxEducationParas_dropDisabled (e : ResumeEducation) :
    docxEducationParas e.dropDisabled = docxEducationParas e := by
  simp [docxEducationParas, ResumeEducation.dropDisabled, filter_enabled_idem]

theorem docxExperienceParas_dropDisabled (e : ResumeExperience) :
    docxExperienceParas e.dropDisabled = docxExperienceParas e := by
  simp [docxExperienceParas, ResumeExperience.dropDisabled, filter_enabled_idem]

theorem docxLeadershipParas_dropDisabled (e : LeadershipExperience) :
    docxLeadershipParas e.dropDisabled = docxLeadershipParas e := by
  simp [docxLeadershipParas, LeadershipExperience.dropDisabled, filter_enabled_idem]

theorem docxProjectParas_dropDisabled (p : ResumeProject) :
    docxProjectParas p.dropDisabled = docxProjectParas p := by
  simp [docxProjectParas, ResumeProject.dropDisabled, filter_enabled_idem]

theorem docxStructured_dropDisabled (r : MasterResume) :
    docxStructured r.dropDisabled = docxStructured r := by
  have he : docxEducationParas ∘ ResumeEducation.dropDisabled = docxEducationParas :=
    funext docxEducationParas_dropDisabled
  have hx : docxExperienceParas ∘ ResumeExperience.dropDisabled = docxExperienceParas :=
    funext docxExperienceParas_dropDisabled
  have hl : docxLeadershipParas ∘ LeadershipExperience.dropDisabled = docxLeadershipParas :=
    funext docxLeadershipParas_dropDisabled
  have hp : docxProjectParas ∘ ResumeProject.dropDisabled = docxProjectParas :=
    funext docxProjectParas_dropDisabled
  simp [docxStructured, MasterResume.dropDisabled, List.map_map, he, hx, hl, hp]

theorem exportToDocx_dropDisabled (c : ExportContent) (ty : ExportType) :
    exportToDocxModel c.dropDisabled ty = exportToDocxModel c ty := by
  cases hm : c.masterResume with
  | none => simp [exportToDocxModel, ExportContent.dropDisabled, hm]
  | some r =>
    simp [exportToDocxModel, ExportContent.dropDisabled, hm, docxStructured_dropDisabled]

theorem pdfEduEntry_dropDisabled (m : PdfTextMetrics) (e : ResumeEducation) (st : PdfState) :
    pdfEduEntry m e.dropDisabled st = pdfEduEntry m e st := by
  simp [pdfEduEntry, ResumeEducation.dropDisabled, filter_enabled_idem]

theorem pdfExpEntry_dropDisabled (m : PdfTextMetrics) (e : ResumeExperience) (st : PdfState) :
    pdfExpEntry m e.dropDisabled st = pdfExpEntry m e st := by
  simp [pdfExpEntry, ResumeExperience.dropDisabled, filter_enabled_idem]

theorem pdfLeadEntry_dropDisabled (m : PdfTextMetrics) (e : LeadershipExperience) (st : PdfState) :
    pdfLeadEntry m e.dropDisabled st = pdfLeadEntry m e st := by
  simp [pdfLeadEntry, LeadershipExperience.dropDisabled, filter_enabled_idem]

theorem pdfProjEntry_dropDisabled (m : PdfTextMetrics) (p : ResumeProject) (st : PdfState) :
    pdfProjEntry m p.dropDisabled st = pdfProjEntry m p st := by
  simp [pdfProjEntry, ResumeProject.dropDisabled, filter_enabled_idem]

theorem pdfStructured_dropDisabled (m : PdfTextMetrics) (r : MasterResume) (st : PdfState) :
    pdfStructured m r.dropDisabled st = pdfStructured m r st := by
  have he : (fun (st : PdfState) e => pdfEduEntry m (ResumeEducation.dropDisabled e) st) =
      (fun st e => pdfEduEntry m e st) :=
    funext fun st => funext fun e => pdfEduEntry_dropDisabled m e st
  have hx : (fun (st : PdfState) e => pdfExpEntry m (ResumeExperience.dropDisabled e) st) =
      (fun st e => pdfExpEntry m e st) :=
    funext fun st => funext fun e => pdfExpEntry_dropDisabled m e st
  have hl : (fun (st : PdfState) e => pdfLeadEntry m (LeadershipExperience.dropDisabled e) st) =
      (fun st e => pdfLeadEntry m e st) :=
    funext fun st => funext fun e => pdfLeadEntry_dropDisabled m e st
  have hp : (fun (st : PdfState) e => pdfProjEntry m (ResumeProject.dropDisabled e) st) =
      (fun st e => pdfProjEntry m e st) :=
    funext fun st => funext fun e => pdfProjEntry_dropDisabled m e st
  simp [pdfStructured, pdfHeaderSec, pdfEducationSec, pdfExperienceSec, pdfLeadershipSec,
    pdfProjectsSec, pdfSkillsSec, pdfLanguagesSec, MasterResume.dropDisabled,
    List.length_map, List.foldl_map, he, hx, hl, hp]

theorem exportToPDF_dropDisabled (m : PdfTextMetrics) (c : ExportContent) (ty : ExportType) :
    exportToPDFModel m c.dropDisabled ty = exportToPDFModel m c ty := by
  cases hm : c.masterResume with
  | none => simp [exportToPDFModel, ExportContent.dropDisabled, hm, pdfFallback, pdfCoverLetterSec]
  | some r =>
    simp [exportToPDFModel, ExportContent.dropDisabled, hm, pdfStructured_dropDisabled,
      pdfFallback, pdfCoverLetterSec]

/-- C1: a bullet whose `enabled` flag is `false` never has its text
included in any backend's output: every backend renders exactly the
same artifact when all disabled bullets are physically erased from
the model, because every bullet list is filtered to
`enabled === true` before layout. -/
theorem disabled_bullets_never_rendered :
    ∀ (m : PdfTextMetrics) (c : ExportContent) (ty : ExportType),
      exportToPDFModel m c.dropDisabled ty = exportToPDFModel m c ty ∧
      exportToDocxModel c.dropDisabled ty = exportToDocxModel c ty ∧
      exportToTextModel c.dropDisabled ty = exportToTextModel c ty :=
  fun m c ty =>
    ⟨exportToPDF_dropDisabled m c ty, exportToDocx_dropDisabled c ty,
      exportToText_dropDisabled c ty⟩

/-! ## C8 — job-text validation bounds -/

theorem dropWhile_ws_replicate_a (n : ℕ) :
    (List.replicate n 'a').dropWhile jsWhitespace = List.replicate n 'a' := by
  have ha : jsWhitespace 'a' = false := by decide
  induction n with
  | zero => rfl
  | succ k ih => simp [List.replicate_succ, List.dropWhile_cons, ha]

theorem jsTrim_replicate_a (n : ℕ) :
    jsTrim (String.mk (List.replicate n 'a')) = String.mk (List.replicate n 'a') := by
  show String.mk ((((List.replicate n 'a').dropWhile jsWhitespace).reverse.dropWhile
    jsWhitespace).reverse) = String.mk (List.replicate n 'a')
  rw [dropWhile_ws_replicate_a, List.reverse_replicate, dropWhile_ws_replicate_a,
    List.reverse_replicate]

/-- A 50,001-character job description. -/
def longJobText : String := String.mk (List.replicate 50001 'a')

/-- C8 counterexample: the second `validateJobText` version accepts a
50,001-character payload (it has no upper bound), so "longer than
50,000 characters is rejected" is false for that validator. -/
theorem jobText_upper_bound_counterexample :
    validateJobTextV2 (JsPrim.jstr longJobText) = JobTextValidation.valid longJobText ∧
    50000 < (jsTrim longJobText).length := by
  have ht : jsTrim longJobText = longJobText := jsTrim_replicate_a 50001
  have hlen : longJobText.length = 50001 := by
    have h0 : longJobText.length = (List.replicate 50001 'a').length := rfl
    rw [h0, List.length_replicate]
  have hne : longJobText ≠ "" := by
    intro h
    rw [h] at hlen
    exact absurd hlen (by decide)
  constructor
  · simp only [validateJobTextV2, ht]
    rw [if_neg hne, if_neg (by omega : ¬ longJobText.length < 50)]
  · rw [ht, hlen]
    omega

/-- Accepted/rejected as a flag. -/
def JobTextValidation.isValid : JobTextValidation → Bool
  | JobTextValidation.valid _ => true
  | JobTextValidation.invalid _ => false

/-- C8 amended: the first validator accepts exactly the payloads
whose trimmed length lies in [50, 50000] (non-strings, empty, short
and over-long text are rejected with an error message), while the
second validator checks only the lower bound: it accepts any string
whose trimmed length is at least 50, with no 50,000-character cap. -/
theorem jobText_validation_amended :
    ∀ v : JsPrim,
      ((validateJobTextV1 v).isValid = true ↔
        ∃ s, v = JsPrim.jstr s ∧ 50 ≤ (jsTrim s).length ∧ (jsTrim s).length ≤ 50000) ∧
      ((validateJobTextV2 v).isValid = true ↔
        ∃ s, v = JsPrim.jstr s ∧ 50 ≤ (jsTrim s).length) := by
  intro v
  cases v with
  | jstr s =>
    have hz : (jsTrim s = "") ↔ (jsTrim s).length = 0 := by
      constructor
      · intro h; rw [h]; rfl
      · intro h
        cases hd : (jsTrim s).data with
        | cons a l =>
          rw [show (jsTrim s).length = (jsTrim s).data.length from rfl, hd] at h
          simp at h
        | nil =>
          cases hjs : jsTrim s with
          | mk d => rw [hjs] at hd; simp at hd; rw [hd]
    constructor
    · simp only [validateJobTextV1]
      split_ifs with h1 h2 h3 <;> simp_all [JobTextValidation.isValid]
    · simp only [validateJobTextV2]
      split_ifs with h1 h2 <;> simp_all [JobTextValidation.isValid]
  | jnum q => simp [validateJobTextV1, validateJobTextV2, JobTextValidation.isValid]
  | jbool b => simp [validateJobTextV1, validateJobTextV2, JobTextValidation.isValid]
  | jnull => simp [validateJobTextV1, validateJobTextV2, JobTextValidation.isValid]
  | jundef => simp [validateJobTextV1, validateJobTextV2, JobTextValidation.isValid]

/-! ## C9 — settings validation -/

/-- A settings object with an out-of-range page count and an
arbitrary cover-letter tone. -/
def rawSettingsCE : RawSettings :=
  { resumeLength := JsPrim.jnum 3, coverLetterTone := JsPrim.jstr "sarcastic" }

/-- C9 counterexample: `resumeLength` is clamped to `[1, 3]`, not
`[1, 2]`, so the value 3 survives validation; and `coverLetterTone`
is only passed through `validateString(·, 50) || 'professional'`, so
an arbitrary non-empty string outside the documented enumeration
survives as well. -/
theorem settings_validation_counterexample :
    (validateSettings (some rawSettingsCE)).resumeLength = 3 ∧
    ¬ (validateSettings (some rawSettingsCE)).resumeLength ≤ 2 ∧
    (validateSettings (some rawSettingsCE)).coverLetterTone = "sarcastic" ∧
    (validateSettings (some rawSettingsCE)).coverLetterTone ∉
      (["professional", "conversational", "enthusiastic"] : List String) := by
  have h1 : (validateSettings (some rawSettingsCE)).resumeLength = 3 := by
    show min (max (3 : ℚ) 1) 3 = 3
    rw [max_eq_left (by norm_num : (1 : ℚ) ≤ 3), min_self]
  refine ⟨h1, ?_, by decide, by decide⟩
  rw [h1]
  norm_num

/-- C9 amended: validated settings satisfy — `resumeLength` lies in
the range 1 to 3 (numbers are clamped to `[1, 3]`, non-numbers
default to 1); `emphasis` ∈ {technical, balanced, leadership,
business}; `atsLevel` ∈ {low, medium, high}; `coverLetterTone` is any
non-empty string of at most 50 characters (trimmed, truncated,
defaulting to "professional" when absent or empty) — it is not
restricted to the documented three-tone enumeration. -/
theorem settings_validation_amended :
    ∀ o : Option RawSettings,
      1 ≤ (validateSettings o).resumeLength ∧
      (validateSettings o).resumeLength ≤ 3 ∧
      (validateSettings o).emphasis ∈
        (["technical", "leadership", "business", "balanced"] : List String) ∧
      (validateSettings o).atsLevel ∈ (["low", "medium", "high"] : List String) ∧
      (validateSettings o).coverLetterTone ≠ "" ∧
      (validateSettings o).coverLetterTone.length ≤ 50 := by
  intro o
  cases o with
  | none =>
    exact ⟨le_refl 1, by show (1 : ℚ) ≤ 3; norm_num, by decide, by decide, by decide, by decide⟩
  | some s =>
    refine ⟨?_, ?_, ?_, ?_, ?_, ?_⟩
    · show (1 : ℚ) ≤ (match s.resumeLength with
        | JsPrim.jnum q => min (max q 1) 3
        | _ => 1)
      cases s.resumeLength with
      | jnum q => exact le_min (le_max_right q 1) (by norm_num)
      | jstr v => norm_num
      | jbool b => norm_num
      | jnull => norm_num
      | jundef => norm_num
    · show (match s.resumeLength with
        | JsPrim.jnum q => min (max q 1) 3
        | _ => 1) ≤ (3 : ℚ)
      cases s.resumeLength with
      | jnum q => exact min_le_right _ _
      | jstr v => norm_num
      | jbool b => norm_num
      | jnull => norm_num
      | jundef => norm_num
    · show (if includesStr ["technical", "leadership", "business", "balanced"] s.emphasis then
          match s.emphasis with
          | JsPrim.jstr v => v
          | _ => "balanced"
        else "balanced") ∈ (["technical", "leadership", "business", "balanced"] : List String)
      split_ifs with h
      · cases hv : s.emphasis with
        | jstr v =>
          rw [hv] at h
          simp only [includesStr] at h
          simpa using h
        | jnum q => rw [hv] at h; simp [includesStr] at h
        | jbool b => rw [hv] at h; simp [includesStr] at h
        | jnull => rw [hv] at h; simp [includesStr] at h
        | jundef => rw [hv] at h; simp [includesStr] at h
      · decide
    · show (if includesStr ["low", "medium", "high"] s.atsLevel then
          match s.atsLevel with
          | JsPrim.jstr v => v
          | _ => "medium"
        else "medium") ∈ (["low", "medium", "high"] : List String)
      split_ifs with h
      · cases hv : s.atsLevel with
        | jstr v =>
          rw [hv] at h
          simp only [includesStr] at h
          simpa using h
        | jnum q => rw [hv] at h; simp [includesStr] at h
        | jbool b => rw [hv] at h; simp [includesStr] at h
        | jnull => rw [hv] at h; simp [includesStr] at h
        | jundef => rw [hv] at h; simp [includesStr] at h
      · decide
    · show (let t := validateStringModel s.coverLetterTone 50
        if t = "" then "professional" else t) ≠ ""
      simp only
      split_ifs with h
      · decide
      · exact h
    · show (let t := validateStringModel s.coverLetterTone 50
        if t = "" then "professional" else t).length ≤ 50
      simp only
      split_ifs with h
      · decide
      · cases hv : s.coverLetterTone with
        | jstr v =>
          simp only [validateStringModel]
          show ((jsTrim v).data.take 50).length ≤ 50
          rw [List.length_take]
          exact min_le_left _ _
        | jnum q => simp [validateStringModel]
        | jbool b => simp [validateStringModel]
        | jnull => simp [validateStringModel]
        | jundef => simp [validateStringModel]

/-! ## C4 — generation-response parsing -/

/-- C4: for both generate-application handler versions — when the
collaborator response contains a fenced code block whose (trimmed)
capture parses as JSON, the handler's parsed result is exactly that
JSON document; when the selected string (the capture, or the whole
response when there is no fence) does not parse, the handler still
succeeds and returns the fallback object whose `resume` field is
the raw response text and whose `coverLetter` / `whyRole` /
`whyCompany` fields are empty strings. -/
theorem generation_response_parsing {α : Type} (jparse : String → Option α)
    (content c : String) (j : α) :
    (fencedCapture content = some c → jparse c = some j →
      parseGenerationV4 jparse content = GenResult.fromJson j ∧
      parseGenerationV5 jparse content = GenResult.fromJson j) ∧
    (jparse (selectedJsonStr content) = none →
      parseGenerationV4 jparse content = GenResult.fallback content "" "" "" ∧
      parseGenerationV5 jparse content = GenResult.fallback content "" "" "") := by
  constructor
  · intro hf hj
    constructor
    · simp [parseGenerationV4, hf, hj]
    · simp [parseGenerationV5, selectedJsonStr, hf, hj]
  · intro hn
    constructor
    · unfold parseGenerationV4
      cases hf : fencedCapture content with
      | none => rfl
      | some c2 =>
        have hc2 : jparse c2 = none := by
          simp only [selectedJsonStr, hf] at hn
          exact hn
        simp [hc2]
    · simp [parseGenerationV5, hn]

/-- A toy `JSON.parse` recognising only the document `7`. -/
def toyParse (s : String) : Option ℕ :=
  if s = "7" then some 7 else none

/-- A collaborator response carrying `7` in a fenced block. -/
def demoFenced : String := "```json\n7\n```"

/-- Witness for C4: the fenced response parses to the embedded JSON,
and an unparseable plain response falls back to the raw text with
the other three fields empty. -/
theorem generation_response_parsing_witness :
    parseGenerationV4 toyParse demoFenced = GenResult.fromJson 7 ∧
    parseGenerationV5 toyParse demoFenced = GenResult.fromJson 7 ∧
    parseGenerationV4 toyParse "plain text" = GenResult.fallback "plain text" "" "" "" ∧
    parseGenerationV5 toyParse "plain text" = GenResult.fallback "plain text" "" "" "" := by
  have h1 := (generation_response_parsing toyParse demoFenced "7" 7).1 (by decide) (by decide)
  have h2 := (generation_response_parsing toyParse "plain text" "7" 7).2 (by decide)
  exact ⟨h1.1, h1.2, h2.1, h2.2⟩

/-! ## C6 — date-only strings parse to local midnight -/

/-- Numeric value of a digit character. -/
def digitVal (c : Char) : ℕ := c.toNat - '0'.toNat

/-- Value of a two-digit group. -/
def twoDigitVal (x y : Char) : ℕ := 10 * digitVal x + digitVal y

/-- Value of a four-digit group. -/
def fourDigitVal (a b c d : Char) : ℕ :=
  1000 * digitVal a + 100 * digitVal b + 10 * digitVal c + digitVal d

theorem isDigit_ne_seps (c : Char) (hc : c.isDigit = true) :
    c ≠ 'T' ∧ c ≠ '-' ∧ c ≠ ':' ∧ c ≠ 'Z' := by
  refine ⟨?_, ?_, ?_, ?_⟩ <;> (intro h; subst h; exact absurd hc (by decide))

theorem splitOnChar_no_sep (sep : Char) (l : List Char) (h : ∀ x ∈ l, x ≠ sep) :
    splitOnChar sep l = [l] := by
  induction l with
  | nil => rfl
  | cons c cs ih =>
    have hc : c ≠ sep := h c (List.mem_cons_self c cs)
    have ihr : splitOnChar sep cs = [cs] := ih (fun x hx => h x (List.mem_cons_of_mem c hx))
    simp [splitOnChar, hc, ihr]

theorem splitOnChar_append_sep (sep : Char) (front tail : List Char)
    (h : ∀ x ∈ front, x ≠ sep) :
    splitOnChar sep (front ++ sep :: tail) = front :: splitOnChar sep tail := by
  induction front with
  | nil => simp [splitOnChar]
  | cons c cs ih =>
    have hc : c ≠ sep := h c (List.mem_cons_self c cs)
    have ihr := ih (fun x hx => h x (List.mem_cons_of_mem c hx))
    simp [splitOnChar, hc, ihr]

theorem digitsToNat_two (x y : Char) (hx : x.isDigit = true) (hy : y.isDigit = true) :
    digitsToNat [x, y] = some (twoDigitVal x y) := by
  simp only [digitsToNat, twoDigitVal, digitVal]
  rw [if_pos]
  · simp [List.foldl]
    omega
  · simp [hx, hy]

theorem digitsToNat_four (a b c d : Char) (ha : a.isDigit = true) (hb : b.isDigit = true)
    (hc : c.isDigit = true) (hd : d.isDigit = true) :
    digitsToNat [a, b, c, d] = some (fourDigitVal a b c d) := by
  simp only [digitsToNat, fourDigitVal, digitVal]
  rw [if_pos]
  · simp [List.foldl]
    omega
  · simp [ha, hb, hc, hd]


theorem parseISOTime_midnight (tz : ℤ) (dp : List Char) :
    parseISOTime tz dp ['0', '0', ':', '0', '0', ':', '0', '0'] =
      mkISODate tz dp false ['0', '0'] ['0', '0'] := rfl

/-- C6: every `YYYY-MM-DD` string (four, two and two digit
characters, with in-range month and day) passes the date-only regex,
and `parseDate` turns it into the timestamp of local midnight of
exactly that calendar day — whatever the host timezone offset `tz`
is, the resulting date's local calendar day is the day named in the
string and its local minute-of-day is 0 (no UTC-shift day drift). -/
theorem parseDate_dateOnly_local_midnight
    (a b c d e f g h : Char) (now : JsDate) (tz : ℤ)
    (ha : a.isDigit = true) (hb : b.isDigit = true) (hc : c.isDigit = true)
    (hd : d.isDigit = true) (he : e.isDigit = true) (hf : f.isDigit = true)
    (hg : g.isDigit = true) (hh : h.isDigit = true)
    (hmLow : 1 ≤ twoDigitVal e f) (hmHigh : twoDigitVal e f ≤ 12)
    (hdLow : 1 ≤ twoDigitVal g h)
    (hdHigh : twoDigitVal g h ≤ daysInMonth (fourDigitVal a b c d) (twoDigitVal e f)) :
    matchesDateOnly (String.mk [a, b, c, d, '-', e, f, '-', g, h]) = true ∧
    parseDateModel now tz (String.mk [a, b, c, d, '-', e, f, '-', g, h]) =
      some ⟨daysFromCivil (fourDigitVal a b c d) (twoDigitVal e f) (twoDigitVal g h) * 1440 - tz⟩ ∧
    JsDate.localDayNumber tz
        ⟨daysFromCivil (fourDigitVal a b c d) (twoDigitVal e f) (twoDigitVal g h) * 1440 - tz⟩ =
      daysFromCivil (fourDigitVal a b c d) (twoDigitVal e f) (twoDigitVal g h) ∧
    JsDate.localMinuteOfDay tz
        ⟨daysFromCivil (fourDigitVal a b c d) (twoDigitVal e f) (twoDigitVal g h) * 1440 - tz⟩ =
      0 := by
  have hmatch : matchesDateOnly (String.mk [a, b, c, d, '-', e, f, '-', g, h]) = true := by
    simp [matchesDateOnly, ha, hb, hc, hd, he, hf, hg, hh]
  have hne : String.mk [a, b, c, d, '-', e, f, '-', g, h] ≠ "" := by
    intro hq
    have : ([a, b, c, d, '-', e, f, '-', g, h] : List Char) = [] := congrArg String.data hq
    simp at this
  refine ⟨hmatch, ?_, ?_, ?_⟩
  · rw [parseDateModel, if_neg hne, if_pos hmatch]
    have hdata : (String.mk [a, b, c, d, '-', e, f, '-', g, h] ++ "T00:00:00").data =
        [a, b, c, d, '-', e, f, '-', g, h] ++
          'T' :: ['0', '0', ':', '0', '0', ':', '0', '0'] := by
      rw [String.data_append]
    have hfrontT : ∀ x ∈ ([a, b, c, d, '-', e, f, '-', g, h] : List Char), x ≠ 'T' := by
      intro x hx
      rcases List.mem_cons.mp hx with rfl | hx
      · exact (isDigit_ne_seps x ha).1
      rcases List.mem_cons.mp hx with rfl | hx
      · exact (isDigit_ne_seps x hb).1
      rcases List.mem_cons.mp hx with rfl | hx
      · exact (isDigit_ne_seps x hc).1
      rcases List.mem_cons.mp hx with rfl | hx
      · exact (isDigit_ne_seps x hd).1
      rcases List.mem_cons.mp hx with rfl | hx
      · decide
      rcases List.mem_cons.mp hx with rfl | hx
      · exact (isDigit_ne_seps x he).1
      rcases List.mem_cons.mp hx with rfl | hx
      · exact (isDigit_ne_seps x hf).1
      rcases List.mem_cons.mp hx with rfl | hx
      · decide
      rcases List.mem_cons.mp hx with rfl | hx
      · exact (isDigit_ne_seps x hg).1
      rcases List.mem_cons.mp hx with rfl | hx
      · exact (isDigit_ne_seps x hh).1
      exact absurd hx (List.not_mem_nil x)
    have hsplitT : splitOnChar 'T'
        ([a, b, c, d, '-', e, f, '-', g, h] ++
          'T' :: ['0', '0', ':', '0', '0', ':', '0', '0']) =
        [[a, b, c, d, '-', e, f, '-', g, h], ['0', '0', ':', '0', '0', ':', '0', '0']] := by
      rw [splitOnChar_append_sep 'T' _ _ hfrontT]
      rw [splitOnChar_no_sep 'T' _ (by decide)]
    rw [parseISOModel, hdata, hsplitT]
    rw [show (match [[a, b, c, d, '-', e, f, '-', g, h],
          ['0', '0', ':', '0', '0', ':', '0', '0']] with
        | [datePart] => mkISODate tz datePart false ['0', '0'] ['0', '0']
        | [datePart, timePart] => parseISOTime tz datePart timePart
        | _ => none) =
        parseISOTime tz [a, b, c, d, '-', e, f, '-', g, h]
          ['0', '0', ':', '0', '0', ':', '0', '0'] from rfl]
    rw [parseISOTime_midnight]
    have hdash : splitOnChar '-' [a, b, c, d, '-', e, f, '-', g, h] =
        [[a, b, c, d], [e, f], [g, h]] := by
      have h1 : ([a, b, c, d, '-', e, f, '-', g, h] : List Char) =
          [a, b, c, d] ++ '-' :: ([e, f] ++ '-' :: [g, h]) := by simp
      rw [h1]
      rw [splitOnChar_append_sep '-' _ _ (by
        intro x hx
        rcases List.mem_cons.mp hx with rfl | hx
        · exact (isDigit_ne_seps x ha).2.1
        rcases List.mem_cons.mp hx with rfl | hx
        · exact (isDigit_ne_seps x hb).2.1
        rcases List.mem_cons.mp hx with rfl | hx
        · exact (isDigit_ne_seps x hc).2.1
        rcases List.mem_cons.mp hx with rfl | hx
        · exact (isDigit_ne_seps x hd).2.1
        exact absurd hx (List.not_mem_nil x))]
      rw [splitOnChar_append_sep '-' _ _ (by
        intro x hx
        rcases List.mem_cons.mp hx with rfl | hx
        · exact (isDigit_ne_seps x he).2.1
        rcases List.mem_cons.mp hx with rfl | hx
        · exact (isDigit_ne_seps x hf).2.1
        exact absurd hx (List.not_mem_nil x))]
      rw [splitOnChar_no_sep '-' [g, h] (by
        intro x hx
        rcases List.mem_cons.mp hx with rfl | hx
        · exact (isDigit_ne_seps x hg).2.1
        rcases List.mem_cons.mp hx with rfl | hx
        · exact (isDigit_ne_seps x hh).2.1
        exact absurd hx (List.not_mem_nil x))]
    rw [mkISODate, hdash]
    simp only [digitsToNat_four a b c d ha hb hc hd, digitsToNat_two e f he hf,
      digitsToNat_two g h hg hh, show digitsToNat ['0', '0'] = some 0 from by decide]
    simp only [Option.some.injEq, JsDate.mk.injEq, Bool.false_eq_true, if_false]
    push_cast
    ring
  · show (daysFromCivil _ _ _ * 1440 - tz + tz).fdiv 1440 = _
    rw [sub_add_cancel]
    exact Int.mul_fdiv_cancel _ (by norm_num)
  · show (daysFromCivil _ _ _ * 1440 - tz + tz).emod 1440 = 0
    rw [sub_add_cancel]
    exact Int.mul_emod_left _ _

/-- Witness for C6 at `"2024-01-15"` in a UTC-8 host timezone
(offset −480 minutes), together with the concrete day number of
2024-01-15 (19737 days after the epoch). -/
theorem parseDate_dateOnly_witness :
    daysFromCivil (fourDigitVal '2' '0' '2' '4') (twoDigitVal '0' '1') (twoDigitVal '1' '5') =
      19737 ∧
    (matchesDateOnly (String.mk ['2', '0', '2', '4', '-', '0', '1', '-', '1', '5']) = true ∧
      parseDateModel ⟨0⟩ (-480) (String.mk ['2', '0', '2', '4', '-', '0', '1', '-', '1', '5']) =
        some ⟨daysFromCivil (fourDigitVal '2' '0' '2' '4') (twoDigitVal '0' '1')
          (twoDigitVal '1' '5') * 1440 - (-480)⟩ ∧
      JsDate.localDayNumber (-480)
          ⟨daysFromCivil (fourDigitVal '2' '0' '2' '4') (twoDigitVal '0' '1')
            (twoDigitVal '1' '5') * 1440 - (-480)⟩ =
        daysFromCivil (fourDigitVal '2' '0' '2' '4') (twoDigitVal '0' '1') (twoDigitVal '1' '5') ∧
      JsDate.localMinuteOfDay (-480)
          ⟨daysFromCivil (fourDigitVal '2' '0' '2' '4') (twoDigitVal '0' '1')
            (twoDigitVal '1' '5') * 1440 - (-480)⟩ =
        0) :=
  ⟨by decide,
    parseDate_dateOnly_local_midnight '2' '0' '2' '4' '0' '1' '1' '5' ⟨0⟩ (-480)
      (by decide) (by decide) (by decide) (by decide) (by decide) (by decide)
      (by decide) (by decide) (by decide) (by decide) (by decide) (by decide)⟩

/-! ## C3 — page-break checks and the bottom-margin invariant -/

/-- A text draw command stays above the bottom margin. -/
def cmdWithinPage (c : PdfCmd) : Bool :=
  match c with
  | PdfCmd.text _ _ y => y ≤ pageHeight - marginBottom
  | PdfCmd.textLink _ _ y _ => y ≤ pageHeight - marginBottom
  | _ => true

/-- Some text was drawn strictly below the bottom margin. -/
def hasTextBeyond (cmds : List PdfCmd) : Bool :=
  cmds.any fun c =>
    match c with
    | PdfCmd.text _ _ y => pageHeight - marginBottom < y
    | PdfCmd.textLink _ _ y _ => pageHeight - marginBottom < y
    | _ => false

/-- Greedy fixed-width chunking (a concrete instantiation of jsPDF's
`splitTextToSize` wrapping about 90 characters per 492-point line at
the 9.5-point body size). -/
def chunksOf (n : ℕ) : ℕ → List Char → List (List Char)
  | 0, l => [l]
  | _ + 1, [] => []
  | fuel + 1, l => l.take n :: chunksOf n fuel (l.drop n)

/-- Metrics wrapping at 90 characters per line. -/
def wrapMetrics : PdfTextMetrics :=
  { measure := fun _ _ _ => 0
    split := fun _ _ t _ => (chunksOf 90 (t.data.length + 1) t.data).map String.mk }

/-- One education entry with 55 short bullets followed by one
350-character bullet: the page-break check runs before the long
bullet (cursor 717, 717 + 20 ≤ 742 passes), but its four wrapped
lines land at 717, 728, 739 and 750 — the last one below the bottom
margin. -/
def overflowResume : MasterResume :=
  { header := { name := "N", email := "", phone := "", linkedin := "", location := "" }
    summaries := []
    education :=
      [ { id := "e", school := "S", degree := "D", field := "", location := ""
          graduationDate := "2020"
          bullets := List.replicate 55 ⟨"b", "x", true⟩ ++
            [⟨"b2", String.mk (List.replicate 350 'x'), true⟩] } ]
    experience := [], projects := []
    skills := { technical := [], languages := [], tools := [], certifications := [] }
    leadership := [] }

set_option maxRecDepth 8000 in
/-- C3 counterexample: the check precedes every bullet but not every
wrapped line of a bullet, so a multi-line bullet that passes its
20-point check can still emit continuation lines beyond
`pageHeight - marginBottom`. -/
theorem pdf_cursor_overflow_counterexample :
    hasTextBeyond
      (exportToPDFModel wrapMetrics (contentOf overflowResume) ExportType.resume).out = true := by
  decide

/-- All commands issued so far stay above the bottom margin. -/
def OutOk (st : PdfState) : Prop :=
  st.out.all cmdWithinPage = true

theorem outOk_emit (c : PdfCmd) (st : PdfState) :
    OutOk (pdfEmit c st) ↔ (OutOk st ∧ cmdWithinPage c = true) := by
  simp [OutOk, pdfEmit, List.all_append]

theorem outOk_advance (n : ℕ) (st : PdfState) :
    OutOk (pdfAdvance n st) ↔ OutOk st := Iff.rfl

theorem outOk_check (req : ℕ) (st : PdfState) :
    OutOk (addNewPageIfNeeded req st) ↔ OutOk st := by
  unfold addNewPageIfNeeded
  split_ifs
  · simp [OutOk, List.all_append, cmdWithinPage]
  · exact Iff.rfl

theorem y_emit (c : PdfCmd) (st : PdfState) : (pdfEmit c st).y = st.y := rfl

theorem y_advance (n : ℕ) (st : PdfState) : (pdfAdvance n st).y = st.y + n := rfl

theorem check_y (req : ℕ) (st : PdfState)
    (h : marginTop + req ≤ pageHeight - marginBottom) :
    (addNewPageIfNeeded req st).y + req ≤ pageHeight - marginBottom := by
  unfold addNewPageIfNeeded
  split_ifs with hc
  · exact h
  · omega

theorem foldl_preserve {α : Type} (P : PdfState → Prop) (f : PdfState → α → PdfState)
    (hf : ∀ a st, P st → P (f st a)) :
    ∀ (l : List α) (st : PdfState), P st → P (List.foldl f st l) := by
  intro l
  induction l with
  | nil => intro st h; exact h
  | cons a t ih => intro st h; exact ih _ (hf a st h)

theorem wrapped_lines_ok (indent : ℕ) (lines : List String) (first : Bool) (st : PdfState)
    (h : OutOk st) (hy : st.y ≤ pageHeight - marginBottom) (hlen : lines.length ≤ 1) :
    OutOk (pdfWrappedLines indent lines first st) := by
  cases lines with
  | nil => exact h
  | cons l ls =>
    cases ls with
    | nil => simp [pdfWrappedLines, outOk_emit, outOk_advance, cmdWithinPage, h, hy]
    | cons l2 ls2 => simp at hlen

theorem plain_lines_ok (lineH : ℕ) (lines : List String) (st : PdfState)
    (h : OutOk st) (hy : st.y ≤ pageHeight - marginBottom) (hlen : lines.length ≤ 1) :
    OutOk (pdfPlainLines lineH lines st) := by
  cases lines with
  | nil => exact h
  | cons l ls =>
    cases ls with
    | nil => simp [pdfPlainLines, outOk_emit, outOk_advance, cmdWithinPage, h, hy]
    | cons l2 ls2 => simp at hlen

theorem checked_lines_ok (req lineH : ℕ)
    (hreq : marginTop + req ≤ pageHeight - marginBottom) (lines : List String) :
    ∀ st : PdfState, OutOk st → OutOk (pdfCheckedLines req lineH lines st) := by
  induction lines with
  | nil => intro st h; exact h
  | cons l ls ih =>
    intro st h
    simp only [pdfCheckedLines]
    apply ih
    have hy := check_y req st hreq
    simp [outOk_emit, outOk_advance, outOk_check, cmdWithinPage, h]
    omega

theorem pdfEduBullet_ok (m : PdfTextMetrics)
    (hs : ∀ fs sz t w, (m.split fs sz t w).length ≤ 1) (b : ResumeBullet) (st : PdfState)
    (h : OutOk st) : OutOk (pdfEduBullet m b st) := by
  simp only [pdfEduBullet]
  have hy := check_y 20 st (by decide)
  apply wrapped_lines_ok
  · simp [outOk_emit, outOk_check, cmdWithinPage, h]
  · simp [y_emit]
    omega
  · exact hs _ _ _ _

theorem pdfExpBullet_ok (m : PdfTextMetrics)
    (hs : ∀ fs sz t w, (m.split fs sz t w).length ≤ 1) (b : ResumeBullet) (st : PdfState)
    (h : OutOk st) : OutOk (pdfExpBullet m b st) := by
  simp only [pdfExpBullet]
  have hy := check_y 20 st (by decide)
  apply wrapped_lines_ok
  · simp [outOk_emit, outOk_check, cmdWithinPage, h]
  · simp [y_emit]
    omega
  · exact hs _ _ _ _

theorem pdfProjBullet_ok (m : PdfTextMetrics)
    (hs : ∀ fs sz t w, (m.split fs sz t w).length ≤ 1) (b : ResumeBullet) (st : PdfState)
    (h : OutOk st) : OutOk (pdfProjBullet m b st) := by
  simp only [pdfProjBullet]
  have hy := check_y 20 st (by decide)
  apply wrapped_lines_ok
  · simp [outOk_emit, outOk_check, cmdWithinPage, h]
  · simp [y_emit]
    omega
  · exact hs _ _ _ _

theorem pdfEduEntry_ok (m : PdfTextMetrics)
    (hs : ∀ fs sz t w, (m.split fs sz t w).length ≤ 1) (e : ResumeEducation) (st : PdfState)
    (h : OutOk st) : OutOk (pdfEduEntry m e st) := by
  simp only [pdfEduEntry]
  have hy := check_y 50 st (by decide)
  apply foldl_preserve OutOk _ (fun b st1 h1 => pdfEduBullet_ok m hs b st1 h1)
  simp [outOk_emit, outOk_advance, outOk_check, y_emit, y_advance, cmdWithinPage, h]
  omega

theorem pdfExpEntry_ok (m : PdfTextMetrics)
    (hs : ∀ fs sz t w, (m.split fs sz t w).length ≤ 1) (e : ResumeExperience) (st : PdfState)
    (h : OutOk st) : OutOk (pdfExpEntry m e st) := by
  simp only [pdfExpEntry, outOk_advance]
  have hy := check_y 60 st (by decide)
  apply foldl_preserve OutOk _ (fun b st1 h1 => pdfExpBullet_ok m hs b st1 h1)
  simp [outOk_emit, outOk_advance, outOk_check, y_emit, y_advance, cmdWithinPage, h]
  omega

theorem pdfLeadEntry_ok (m : PdfTextMetrics)
    (hs : ∀ fs sz t w, (m.split fs sz t w).length ≤ 1) (e : LeadershipExperience)
    (st : PdfState) (h : OutOk st) : OutOk (pdfLeadEntry m e st) := by
  simp only [pdfLeadEntry, outOk_advance]
  have hy := check_y 60 st (by decide)
  apply foldl_preserve OutOk _ (fun b st1 h1 => pdfExpBullet_ok m hs b st1 h1)
  simp [outOk_emit, outOk_advance, outOk_check, y_emit, y_advance, cmdWithinPage, h]
  omega

theorem pdfProjEntry_ok (m : PdfTextMetrics)
    (hs : ∀ fs sz t w, (m.split fs sz t w).length ≤ 1) (p : ResumeProject) (st : PdfState)
    (h : OutOk st) : OutOk (pdfProjEntry m p st) := by
  have hy := check_y 40 st (by decide)
  cases hp : p.link with
  | none =>
    by_cases hdt : strTruthy p.startDate ∨ strTruthy p.endDate <;>
      · simp only [pdfProjEntry, hp, hdt, if_true, if_false, outOk_advance]
        apply foldl_preserve OutOk _ (fun b st1 h1 => pdfProjBullet_ok m hs b st1 h1)
        simp [outOk_emit, outOk_advance, outOk_check, y_emit, y_advance, cmdWithinPage, h]
        omega
  | some l =>
    by_cases hl : strTruthy l <;>
      by_cases hdt : strTruthy p.startDate ∨ strTruthy p.endDate <;>
        · simp only [pdfProjEntry, hp, hl, hdt, if_true, if_false, outOk_advance]
          apply foldl_preserve OutOk _ (fun b st1 h1 => pdfProjBullet_ok m hs b st1 h1)
          simp [outOk_emit, outOk_advance, outOk_check, y_emit, y_advance, cmdWithinPage, h]
          omega

theorem pdfHeaderSec_ok (m : PdfTextMetrics) (r : MasterResume) (st : PdfState)
    (h : OutOk st) (hy : st.y + 14 ≤ pageHeight - marginBottom) :
    OutOk (pdfHeaderSec m r st) := by
  simp [pdfHeaderSec, outOk_emit, outOk_advance, y_emit, y_advance, cmdWithinPage, h]
  omega

theorem pdfHeaderSec_y (m : PdfTextMetrics) (r : MasterResume) (st : PdfState) :
    (pdfHeaderSec m r st).y = st.y + 30 := rfl

theorem pdfEducationSec_ok (m : PdfTextMetrics)
    (hs : ∀ fs sz t w, (m.split fs sz t w).length ≤ 1) (r : MasterResume) (st : PdfState)
    (h : OutOk st) (hy : st.y ≤ pageHeight - marginBottom) :
    OutOk (pdfEducationSec m r st) := by
  unfold pdfEducationSec
  split_ifs
  · simp only [outOk_advance]
    apply foldl_preserve OutOk _ (fun e st1 h1 => pdfEduEntry_ok m hs e st1 h1)
    simp [outOk_emit, outOk_advance, y_emit, y_advance, cmdWithinPage, h, hy]
  · exact h

theorem pdfExperienceSec_ok (m : PdfTextMetrics)
    (hs : ∀ fs sz t w, (m.split fs sz t w).length ≤ 1) (r : MasterResume) (st : PdfState)
    (h : OutOk st) : OutOk (pdfExperienceSec m r st) := by
  unfold pdfExperienceSec
  split_ifs
  · have hy := check_y 60 st (by decide)
    apply foldl_preserve OutOk _ (fun e st1 h1 => pdfExpEntry_ok m hs e st1 h1)
    simp [outOk_emit, outOk_advance, outOk_check, y_emit, y_advance, cmdWithinPage, h]
    omega
  · exact h

theorem pdfLeadershipSec_ok (m : PdfTextMetrics)
    (hs : ∀ fs sz t w, (m.split fs sz t w).length ≤ 1) (r : MasterResume) (st : PdfState)
    (h : OutOk st) : OutOk (pdfLeadershipSec m r st) := by
  unfold pdfLeadershipSec
  split_ifs
  · have hy := check_y 50 st (by decide)
    apply foldl_preserve OutOk _ (fun e st1 h1 => pdfLeadEntry_ok m hs e st1 h1)
    simp [outOk_emit, outOk_advance, outOk_check, y_emit, y_advance, cmdWithinPage, h]
    omega
  · exact h

theorem pdfProjectsSec_ok (m : PdfTextMetrics)
    (hs : ∀ fs sz t w, (m.split fs sz t w).length ≤ 1) (r : MasterResume) (st : PdfState)
    (h : OutOk st) : OutOk (pdfProjectsSec m r st) := by
  unfold pdfProjectsSec
  split_ifs
  · have hy := check_y 50 st (by decide)
    simp only [outOk_advance]
    apply foldl_preserve OutOk _ (fun p st1 h1 => pdfProjEntry_ok m hs p st1 h1)
    simp [outOk_emit, outOk_advance, outOk_check, y_emit, y_advance, cmdWithinPage, h]
    omega
  · exact h

theorem pdfSkillsSec_ok (m : PdfTextMetrics)
    (hs : ∀ fs sz t w, (m.split fs sz t w).length ≤ 1) (r : MasterResume) (st : PdfState)
    (h : OutOk st) : OutOk (pdfSkillsSec m r st) := by
  unfold pdfSkillsSec
  split_ifs
  · have hy := check_y 30 st (by decide)
    simp only [outOk_advance]
    apply plain_lines_ok
    · simp [outOk_emit, outOk_advance, outOk_check, y_emit, y_advance, cmdWithinPage, h]
      omega
    · simp [y_emit, y_advance]
      omega
    · exact hs _ _ _ _
  · exact h

theorem pdfLanguagesSec_ok (m : PdfTextMetrics) (r : MasterResume) (st : PdfState)
    (h : OutOk st) : OutOk (pdfLanguagesSec m r st) := by
  unfold pdfLanguagesSec
  split_ifs
  · have hy := check_y 30 st (by decide)
    simp [outOk_emit, outOk_advance, outOk_check, y_emit, y_advance, cmdWithinPage, h]
    omega
  · exact h

theorem pdfStructured_ok (m : PdfTextMetrics)
    (hs : ∀ fs sz t w, (m.split fs sz t w).length ≤ 1) (r : MasterResume) (st : PdfState)
    (h : OutOk st) (hy : st.y + 30 ≤ pageHeight - marginBottom) :
    OutOk (pdfStructured m r st) := by
  unfold pdfStructured
  apply pdfLanguagesSec_ok
  apply pdfSkillsSec_ok m hs
  apply pdfProjectsSec_ok m hs
  apply pdfLeadershipSec_ok m hs
  apply pdfExperienceSec_ok m hs
  apply pdfEducationSec_ok m hs
  · exact pdfHeaderSec_ok m r st h (by omega)
  · rw [pdfHeaderSec_y]
    omega

theorem pdfFallback_ok (m : PdfTextMetrics) (c : ExportContent) (st : PdfState)
    (h : OutOk st) (hy : st.y + 14 ≤ pageHeight - marginBottom) :
    OutOk (pdfFallback m c st) := by
  unfold pdfFallback
  apply checked_lines_ok 14 12 (by decide)
  simp [outOk_emit, outOk_advance, y_emit, y_advance, cmdWithinPage, h]
  omega

theorem pdfCoverLetterSec_ok (m : PdfTextMetrics) (c : ExportContent) (st : PdfState)
    (h : OutOk st) (hy : st.y ≤ pageHeight - marginBottom) :
    OutOk (pdfCoverLetterSec m c st) := by
  unfold pdfCoverLetterSec
  apply foldl_preserve OutOk _ (fun para st1 h1 => ?_)
  · simp [outOk_emit, outOk_advance, y_emit, y_advance, cmdWithinPage, h, hy]
  · split_ifs
    · simp only [outOk_advance]
      exact checked_lines_ok 14 13 (by decide) _ _ h1
    · exact h1

/-- C3 amended: `addNewPageIfNeeded` checks `cursor + h` against the
bottom margin and resets to the top margin on overflow, and this
check precedes every entry block and every bullet — it bounds the
position of the first line of each checked block, so whenever the
renderer's line wrapping produces at most one line per block (no
bullet, skills or paragraph text wraps), no emitted line's cursor
exceeds `pageHeight - marginBottom`.  (Continuation lines of a
wrapped block are not re-checked — see the counterexample.) -/
theorem pdf_page_break_invariant (m : PdfTextMetrics)
    (hs : ∀ fs sz t w, (m.split fs sz t w).length ≤ 1) :
    ∀ (c : ExportContent) (ty : ExportType),
      (exportToPDFModel m c ty).out.all cmdWithinPage = true := by
  intro c ty
  have h0 : OutOk { y := marginTop, out := [] } := rfl
  have hy0 : (marginTop : ℕ) + 30 ≤ pageHeight - marginBottom := by decide
  have hres : ∀ st : PdfState, OutOk st → st.y + 30 ≤ pageHeight - marginBottom →
      OutOk (match c.masterResume with
        | some r => pdfStructured m r st
        | none => pdfFallback m c st) := by
    intro st h hy
    cases c.masterResume with
    | some r => exact pdfStructured_ok m hs r st h hy
    | none => exact pdfFallback_ok m c st h (by omega)
  cases ty with
  | resume =>
    show OutOk _
    simp only [exportToPDFModel]
    simp only [reduceCtorEq, or_false, or_self, false_and, and_false, if_false, eq_self_iff_true,
      true_or, if_true]
    exact hres _ h0 hy0
  | coverLetter =>
    show OutOk _
    simp only [exportToPDFModel]
    simp only [reduceCtorEq, or_false, or_self, false_and, and_false, if_false, eq_self_iff_true,
      or_true, true_or, true_and, if_true]
    split_ifs with hcl
    · exact pdfCoverLetterSec_ok m c _ h0 (by decide)
    · exact h0
  | both =>
    show OutOk _
    simp only [exportToPDFModel]
    simp only [reduceCtorEq, or_false, or_self, false_and, and_false, if_false, eq_self_iff_true,
      or_true, true_or, true_and, if_true]
    split_ifs with hcl
    · refine pdfCoverLetterSec_ok m c _ ?_ ?_
      · have hR := hres _ h0 hy0
        simp only [OutOk, List.all_append] at hR ⊢
        simp [hR, cmdWithinPage]
      · show (marginTop : ℕ) ≤ pageHeight - marginBottom
        decide
    · exact hres _ h0 hy0

/-- Witness for C3's amended invariant: with single-line metrics, the
render of `overflowResume` (structured path, 56 bullets spilling onto
a second page) keeps every drawn line above the bottom margin. -/
theorem pdf_page_break_invariant_witness :
    (∀ (fs : FontStyle) (sz : ℚ) (t : String) (w : ℕ),
      (unitMetrics.split fs sz t w).length ≤ 1) ∧
    (exportToPDFModel unitMetrics (contentOf overflowResume) ExportType.resume).out.all
      cmdWithinPage = true :=
  ⟨fun fs sz t w => by simp [unitMetrics],
    pdf_page_break_invariant unitMetrics (fun fs sz t w => by simp [unitMetrics])
      (contentOf overflowResume) ExportType.resume⟩
